import Mathlib

/-!
Verification of the record/coordination data model of ELF
(`src_cpp/elfgames/go/record.h`): a shallow embedding in Lean 4 of the
entity structs (ClientCtrl, ModelPair, MsgRequest, MsgResult, Record,
ThreadState, Records), their JSON (de)serialization via the `JSON_*`
field macros, the batch decoding entry points, and proofs of the spec's
claims about them.

Modelling conventions:
* `nlohmann::json` values are the inductive `Json` below; objects are
  association lists of key/value pairs, and mutation (`j[k] = v`) is
  explicit state passing (`Json.set`).
* C++ deserialization exceptions are `Option`: a result of `none` means
  the C++ code throws.
* Machine integers are unbounded `Int`/`Nat` with the narrowing
  conversion applied at the json-to-field boundary (`sWrap`, `uWrap`);
  the source performs no arithmetic on them.
* C++ floating-point fields are modelled as exact numbers (`Rat`): the
  source only stores, serializes and compares them, never computes with
  them.
-/

/-- Model of an `nlohmann::json` value.  Objects are association lists in
insertion order; all lookups are by key, so ordering never influences the
semantics proved below. -/
inductive Json where
  | null : Json
  | bool : Bool → Json
  | num : Rat → Json
  | str : String → Json
  | arr : List Json → Json
  | obj : List (String × Json) → Json

namespace Json

/-- Insert-or-assign on the underlying association list of an object. -/
def setKey : List (String × Json) → String → Json → List (String × Json)
  | [], k, v => [(k, v)]
  | (k1, v1) :: rest, k, v =>
    if k1 = k then (k, v) :: rest else (k1, v1) :: setKey rest k v

/-- C++ `j[k] = v`: a null json first converts to an empty object. -/
def set : Json → String → Json → Json
  | obj kvs, k, v => obj (setKey kvs k v)
  | _, k, v => obj (setKey [] k v)

/-- C++ `j.find(k)` / `j.at(k)`: key lookup, `none` when the key is absent
or the json value is not an object. -/
def find : Json → String → Option Json
  | obj kvs, k => kvs.lookup k
  | _, _ => none

/-- C++ `j[k].push_back(v)`: an absent key first creates a null value,
which `push_back` converts to a one-element array.  The source only calls
this on json values it built itself, so the key, when present, is always
an array. -/
def pushKey (j : Json) (k : String) (v : Json) : Json :=
  match j.find k with
  | some (arr l) => j.set k (arr (l ++ [v]))
  | _ => j.set k (arr [v])

/-- C++ `j.erase(k)` (used only to build test inputs lacking a field). -/
def eraseKey (j : Json) (k : String) : Json :=
  match j with
  | obj kvs => obj (kvs.filter (fun kv => kv.1 != k))
  | j => j

/-- C++ `get<T>` for an integral target type `T`: json floats convert by
truncation toward zero (`static_cast`); non-numbers throw. -/
def getWholeNum : Json → Option Int
  | num q => some (q.num.tdiv (q.den : Int))
  | _ => none

/-- C++ `get<float>` / `get<double>`: any json number converts. -/
def getNum : Json → Option Rat
  | num q => some q
  | _ => none

/-- C++ `get<bool>`: only a json boolean converts; anything else throws. -/
def getBool : Json → Option Bool
  | bool b => some b
  | _ => none

/-- C++ `get<std::string>`: only a json string converts. -/
def getStr : Json → Option String
  | str s => some s
  | _ => none

/-- View a json value as an array. -/
def getArr : Json → Option (List Json)
  | arr l => some l
  | _ => none

end Json

/-- Two's-complement narrowing of an unbounded integer to a signed
`w`-bit machine integer, as the C++ integral conversion at the
json-to-struct-field boundary does. -/
def sWrap (w : Nat) (i : Int) : Int :=
  (i + 2 ^ (w - 1)) % 2 ^ w - 2 ^ (w - 1)

/-- Narrowing of an unbounded integer to an unsigned `w`-bit machine
integer (modular reduction). -/
def uWrap (w : Nat) (i : Int) : Nat :=
  (i % 2 ^ w).toNat

/-- The value range of a signed `w`-bit machine integer. -/
def inS (w : Nat) (i : Int) : Prop :=
  -(2 ^ (w - 1)) ≤ i ∧ i < 2 ^ (w - 1)

instance (w : Nat) (i : Int) : Decidable (inS w i) := by
  unfold inS; infer_instance

/-- Modelled from the spec: the required-field load `JSON_LOAD(obj, j,
field)` of `elf/utils/json_utils.h` (a header of this repository that is
not under `src/`), reading a required integral field; absence or a
non-numeric value throws (spec §7, MalformedMessage), and the value
narrows to the field's machine-integer width. -/
def loadInt (j : Json) (k : String) (w : Nat) : Option Int :=
  ((j.find k).bind Json.getWholeNum).map (sWrap w)

/-- Modelled from the spec: `JSON_LOAD` into an unsigned field. -/
def loadUInt (j : Json) (k : String) (w : Nat) : Option Nat :=
  ((j.find k).bind Json.getWholeNum).map (uWrap w)

/-- Modelled from the spec: `JSON_LOAD` into a floating-point field. -/
def loadNum (j : Json) (k : String) : Option Rat :=
  (j.find k).bind Json.getNum

/-- Modelled from the spec: `JSON_LOAD` into a boolean field. -/
def loadBool (j : Json) (k : String) : Option Bool :=
  (j.find k).bind Json.getBool

/-- Modelled from the spec: `JSON_LOAD` into a string field. -/
def loadStr (j : Json) (k : String) : Option String :=
  (j.find k).bind Json.getStr

/-- Modelled from the spec: `JSON_LOAD_OPTIONAL(obj, j, field)` for a
boolean field — an absent key keeps the default-constructed value rather
than throwing (spec §7, SchemaVersionMismatch). -/
def loadOptBool (j : Json) (k : String) (dflt : Bool) : Option Bool :=
  match j.find k with
  | none => some dflt
  | some v => v.getBool

/-- Modelled from the spec: `JSON_LOAD_VEC(obj, j, values)` — a required
list field; an absent key or a non-array value throws, and every element
must convert. -/
def loadVecNum (j : Json) (k : String) : Option (List Rat) :=
  match j.find k with
  | some (.arr l) => l.mapM Json.getNum
  | _ => none

/-- Modelled from the spec: `JSON_LOAD_VEC_OPTIONAL(obj, j,
using_models)` — an absent key keeps the default-constructed (empty)
vector; a present value must be an array of convertible elements. -/
def loadVecInt64Opt (j : Json) (k : String) : Option (List Int) :=
  match j.find k with
  | none => some []
  | some (.arr l) => (l.mapM Json.getWholeNum).map (List.map (sWrap 64))
  | some _ => none

/-- The `ClientType` enum of `record.h`; the struct field stores its
underlying integer value. -/
def CLIENT_INVALID : Int := 0

def CLIENT_SELFPLAY_ONLY : Int := 1

def CLIENT_EVAL_THEN_SELFPLAY : Int := 2

/-- `struct ClientCtrl` of `record.h`. -/
structure ClientCtrl where
  client_type : Int := CLIENT_SELFPLAY_ONLY
  num_game_thread_used : Int := -1
  black_resign_thres : Rat := 0
  white_resign_thres : Rat := 0
  never_resign_prob : Rat := 0
  player_swap : Bool := false
  async : Bool := false
  deriving DecidableEq

/-- `ClientCtrl::setJsonFields`. -/
def ClientCtrl.setJsonFields (c : ClientCtrl) (j : Json) : Json :=
  let j := j.set "client_type" (.num (c.client_type : Rat))
  let j := j.set "num_game_thread_used" (.num (c.num_game_thread_used : Rat))
  let j := j.set "black_resign_thres" (.num c.black_resign_thres)
  let j := j.set "white_resign_thres" (.num c.white_resign_thres)
  let j := j.set "never_resign_prob" (.num c.never_resign_prob)
  let j := j.set "player_swap" (.bool c.player_swap)
  j.set "async" (.bool c.async)

/-- `ClientCtrl::createFromJson`.  `player_swap` is loaded optionally
exactly when the caller passes `player_swap_optional = true`; `async` is
always optional. -/
def ClientCtrl.createFromJson (j : Json) (player_swap_optional : Bool) :
    Option ClientCtrl := do
  let client_type ← loadInt j "client_type" 32
  let num_game_thread_used ← loadInt j "num_game_thread_used" 32
  let black_resign_thres ← loadNum j "black_resign_thres"
  let white_resign_thres ← loadNum j "white_resign_thres"
  let never_resign_prob ← loadNum j "never_resign_prob"
  let player_swap ←
    if player_swap_optional then loadOptBool j "player_swap" false
    else loadBool j "player_swap"
  let async ← loadOptBool j "async" false
  return { client_type, num_game_thread_used, black_resign_thres,
           white_resign_thres, never_resign_prob, player_swap, async }

/-- Modelled from the spec: `elf::ai::tree_search::TSOptions`
(`elf/ai/tree_search/tree_search_options.h`, a header of this repository
not under `src/`), the "opaque associated search-configuration value" of
a VersionPair (spec §3).  The code here only stores, compares and
(de)serializes it, so it is modelled as a single opaque payload carrying
the same (de)serialization interface as every other entity. -/
structure TSOptions where
  payload : Int := 0
  deriving DecidableEq

/-- Modelled from the spec: serialization of the opaque search options. -/
def TSOptions.setJsonFields (t : TSOptions) (j : Json) : Json :=
  j.set "payload" (.num (t.payload : Rat))

/-- Modelled from the spec: deserialization of the opaque search
options. -/
def TSOptions.createFromJson (j : Json) : Option TSOptions := do
  let payload ← loadInt j "payload" 64
  return { payload }

/-- `struct ModelPair` of `record.h` (the spec's VersionPair). -/
structure ModelPair where
  black_ver : Int := -1
  white_ver : Int := -1
  mcts_opt : TSOptions := {}
  deriving DecidableEq

/-- `ModelPair::wait`. -/
def ModelPair.wait (p : ModelPair) : Bool :=
  decide (p.black_ver < 0)

/-- `ModelPair::set_wait`. -/
def ModelPair.set_wait (p : ModelPair) : ModelPair :=
  { p with black_ver := -1, white_ver := -1 }

/-- `ModelPair::is_selfplay`. -/
def ModelPair.is_selfplay (p : ModelPair) : Bool :=
  decide (p.black_ver ≥ 0) && decide (p.white_ver = -1)

/-- `ModelPair::setJsonFields`. -/
def ModelPair.setJsonFields (p : ModelPair) (j : Json) : Json :=
  let j := j.set "black_ver" (.num (p.black_ver : Rat))
  let j := j.set "white_ver" (.num (p.white_ver : Rat))
  j.set "mcts_opt" (p.mcts_opt.setJsonFields .null)

/-- `ModelPair::createFromJson`. -/
def ModelPair.createFromJson (j : Json) : Option ModelPair := do
  let black_ver ← loadInt j "black_ver" 64
  let white_ver ← loadInt j "white_ver" 64
  let mcts_opt ← (j.find "mcts_opt").bind TSOptions.createFromJson
  return { black_ver, white_ver, mcts_opt }

/-- `struct MsgRequest` of `record.h` (the spec's Request). -/
structure MsgRequest where
  vers : ModelPair := {}
  client_ctrl : ClientCtrl := {}
  deriving DecidableEq

/-- `MsgRequest::setJsonFields`. -/
def MsgRequest.setJsonFields (m : MsgRequest) (j : Json) : Json :=
  let j := j.set "vers" (m.vers.setJsonFields .null)
  j.set "client_ctrl" (m.client_ctrl.setJsonFields .null)

/-- `MsgRequest::createFromJson`: the `client_ctrl` load passes
`vers.is_selfplay()` as the `player_swap_optional` argument. -/
def MsgRequest.createFromJson (j : Json) : Option MsgRequest := do
  let vers ← (j.find "vers").bind ModelPair.createFromJson
  let client_ctrl ← (j.find "client_ctrl").bind
    (fun jc => ClientCtrl.createFromJson jc vers.is_selfplay)
  return { vers, client_ctrl }

/-- Modelled from the spec: `BOUND_COORD` of `base/board.h` (a header of
this repository not under `src/`): the fixed number of board coordinates,
including the pass coordinate (spec §3), for the 19×19 board. -/
def BOUND_COORD : Nat := 362

/-- `struct CoordRecord` of `record.h`: a fixed C array of `BOUND_COORD`
bytes (`unsigned char prob[BOUND_COORD]`), modelled as a list of byte
values; every value arising in the C++ program has length
`BOUND_COORD`. -/
structure CoordRecord where
  prob : List Nat := List.replicate BOUND_COORD 0
  deriving DecidableEq

/-- Serialization of one policy entry inside `MsgResult::setJsonFields`:
every byte of `prob` is pushed into a json array. -/
def CoordRecord.toJsonArr (c : CoordRecord) : Json :=
  .arr (c.prob.map (fun (b : Nat) => .num (b : Rat)))

/-- The body of the `policies` loop of `MsgResult::createFromJson`: a
default-constructed `CoordRecord` (the C++ code leaves `prob`
uninitialized; modelled as zero bytes) whose first `j1.size()` bytes are
overwritten with the json array's elements converted to `unsigned char`.
A non-numeric element throws.  An array longer than `BOUND_COORD` would
overrun the C++ array (undefined behaviour); the model drops those
writes. -/
def CoordRecord.createFromJson (l : List Json) : Option CoordRecord := do
  let bytes ← l.mapM Json.getWholeNum
  let written := bytes.map (fun i => uWrap 8 i)
  return { prob := written.take BOUND_COORD ++
                   (List.replicate BOUND_COORD 0).drop written.length }

/-- `struct MsgResult` of `record.h` (the spec's GameOutcome). -/
structure MsgResult where
  num_move : Int := 0
  reward : Rat := 0
  black_never_resign : Bool := false
  white_never_resign : Bool := false
  using_models : List Int := []
  content : String := ""
  policies : List CoordRecord := []
  values : List Rat := []
  deriving DecidableEq

/-- `MsgResult::setJsonFields`. -/
def MsgResult.setJsonFields (m : MsgResult) (j : Json) : Json :=
  let j := j.set "num_move" (.num (m.num_move : Rat))
  let j := j.set "reward" (.num m.reward)
  let j := j.set "black_never_resign" (.bool m.black_never_resign)
  let j := j.set "white_never_resign" (.bool m.white_never_resign)
  let j := j.set "using_models"
    (.arr (m.using_models.map (fun (i : Int) => .num (i : Rat))))
  let j := j.set "content" (.str m.content)
  let j := m.policies.foldl (fun j p => j.pushKey "policies" p.toJsonArr) j
  j.set "values" (.arr (m.values.map (fun v => .num v)))

/-- One iteration of the `policies` loop of `MsgResult::createFromJson`
(no try/catch here, so an element failure throws): a null element has
size zero and leaves the default-constructed entry; an array element is
copied byte by byte; anything else throws on the byte indexing. -/
def MsgResult.policyElem : Json → Option CoordRecord
  | .null => some {}
  | .arr l => CoordRecord.createFromJson l
  | _ => none

/-- Continuation of `MsgResult::createFromJson` on the `policies` key
itself: an absent key yields no policies; a present null has size zero,
so the element loop never runs; a present array is read element by
element; any other json value throws on the integer indexing. -/
def MsgResult.loadPolicies (j : Json) : Option (List CoordRecord) :=
  match j.find "policies" with
  | none => some []
  | some .null => some []
  | some (.arr lp) => lp.mapM MsgResult.policyElem
  | some _ => none

/-- `MsgResult::createFromJson`, loading the fields in source order. -/
def MsgResult.createFromJson (j : Json) : Option MsgResult := do
  let num_move ← loadInt j "num_move" 32
  let reward ← loadNum j "reward"
  let content ← loadStr j "content"
  let black_never_resign ← loadBool j "black_never_resign"
  let white_never_resign ← loadBool j "white_never_resign"
  let using_models ← loadVecInt64Opt j "using_models"
  let values ← loadVecNum j "values"
  let policies ← MsgResult.loadPolicies j
  return { num_move, reward, black_never_resign, white_never_resign,
           using_models, content, policies, values }

/-- `struct Record` of `record.h` (the spec's GameRecord). -/
structure Record where
  request : MsgRequest := {}
  result : MsgResult := {}
  timestamp : Nat := 0
  thread_id : Nat := 0
  seq : Int := 0
  pri : Rat := 0
  offline : Bool := false
  deriving DecidableEq

/-- `Record::setJsonFields`. -/
def Record.setJsonFields (r : Record) (j : Json) : Json :=
  let j := j.set "request" (r.request.setJsonFields .null)
  let j := j.set "result" (r.result.setJsonFields .null)
  let j := j.set "timestamp" (.num (r.timestamp : Rat))
  let j := j.set "thread_id" (.num (r.thread_id : Rat))
  let j := j.set "seq" (.num (r.seq : Rat))
  let j := j.set "pri" (.num r.pri)
  j.set "offline" (.bool r.offline)

/-- `Record::createFromJson`: all fields required except `offline`. -/
def Record.createFromJson (j : Json) : Option Record := do
  let request ← (j.find "request").bind MsgRequest.createFromJson
  let result ← (j.find "result").bind MsgResult.createFromJson
  let timestamp ← loadUInt j "timestamp" 64
  let thread_id ← loadUInt j "thread_id" 64
  let seq ← loadInt j "seq" 32
  let pri ← loadNum j "pri"
  let offline ← loadOptBool j "offline" false
  return { request, result, timestamp, thread_id, seq, pri, offline }

/-- `struct ThreadState` of `record.h`. -/
structure ThreadState where
  thread_id : Int := -1
  seq : Int := 0
  move_idx : Int := 0
  black : Int := -1
  white : Int := -1
  deriving DecidableEq

/-- `ThreadState::setJsonFields`. -/
def ThreadState.setJsonFields (t : ThreadState) (j : Json) : Json :=
  let j := j.set "thread_id" (.num (t.thread_id : Rat))
  let j := j.set "seq" (.num (t.seq : Rat))
  let j := j.set "move_idx" (.num (t.move_idx : Rat))
  let j := j.set "black" (.num (t.black : Rat))
  j.set "white" (.num (t.white : Rat))

/-- `ThreadState::createFromJson`: every field is required. -/
def ThreadState.createFromJson (j : Json) : Option ThreadState := do
  let thread_id ← loadInt j "thread_id" 32
  let seq ← loadInt j "seq" 32
  let move_idx ← loadInt j "move_idx" 32
  let black ← loadInt j "black" 64
  let white ← loadInt j "white" 64
  return { thread_id, seq, move_idx, black, white }

/-- Insert-or-assign on the thread-state table, the effect of the C++
`states[key] = ts` on `std::unordered_map<int, ThreadState>`. -/
def mapSetKey :
    List (Int × ThreadState) → Int → ThreadState → List (Int × ThreadState)
  | [], k, v => [(k, v)]
  | (k1, v1) :: rest, k, v =>
    if k1 = k then (k, v) :: rest else (k1, v1) :: mapSetKey rest k v

/-- `struct Records` of `record.h` (the spec's RecordCollector).  The
`std::unordered_map<int, ThreadState>` is modelled as an association
list with distinct keys; all map operations are by key, so the bucket
order of the C++ container is irrelevant to every property proved
below. -/
structure Records where
  identity : String := ""
  states : List (Int × ThreadState) := []
  records : List Record := []
  deriving DecidableEq

/-- The default `Records()` constructor. -/
def Records.init : Records := {}

/-- The `Records(const std::string&)` constructor. -/
def Records.initWithId (id : String) : Records :=
  { identity := id }

/-- `Records::clear`. -/
def Records.clear (rs : Records) : Records :=
  { rs with states := [], records := [] }

/-- `Records::addRecord`. -/
def Records.addRecord (rs : Records) (r : Record) : Records :=
  { rs with records := rs.records ++ [r] }

/-- `Records::isRecordEmpty`. -/
def Records.isRecordEmpty (rs : Records) : Bool :=
  rs.records.isEmpty

/-- `Records::updateState`: `states[ts.thread_id] = ts`. -/
def Records.updateState (rs : Records) (ts : ThreadState) : Records :=
  { rs with states := mapSetKey rs.states ts.thread_id ts }

/-- `Records::setJsonFields`. -/
def Records.setJsonFields (rs : Records) (j : Json) : Json :=
  let j := j.set "identity" (.str rs.identity)
  let j := rs.states.foldl
    (fun j t => j.pushKey "states" (t.2.setJsonFields .null)) j
  rs.records.foldl (fun j r => j.pushKey "records" (r.setJsonFields .null)) j

/-- The `states` block of `Records::createFromJson`: guarded by
`j.find("states") != j.end()`, each parsed `ThreadState` is inserted
keyed by its own `thread_id`; element failures throw (no try/catch
here). -/
def Records.loadStates (j : Json) : Option (List (Int × ThreadState)) :=
  match j.find "states" with
  | none => some []
  | some .null => some []
  | some (.arr l) =>
    l.foldlM (fun acc ji => do
      let t ← ThreadState.createFromJson ji
      return mapSetKey acc t.thread_id t) []
  | some _ => none

/-- The `records` block of `Records::createFromJson`: guarded by
`j.find("records") != j.end()`, records are appended in array order;
element failures throw (no try/catch here, unlike the batch loop). -/
def Records.loadRecords (j : Json) : Option (List Record) :=
  match j.find "records" with
  | none => some []
  | some .null => some []
  | some (.arr l) => l.mapM Record.createFromJson
  | some _ => none

/-- `Records::createFromJson`. -/
def Records.createFromJson (j : Json) : Option Records := do
  let identity ← loadStr j "identity"
  let states ← Records.loadStates j
  let records ← Records.loadRecords j
  return { identity, states, records }

/-- The element loop of `Record::createBatchFromJson`: each element is
parsed inside `try { push_back(createFromJson(j[i])) } catch (...) {}`,
so an element that fails to parse is dropped and the loop continues. -/
def Record.batchLoop : List Json → List Record → List Record
  | [], acc => acc
  | x :: rest, acc =>
    match Record.createFromJson x with
    | some r => Record.batchLoop rest (acc ++ [r])
    | none => Record.batchLoop rest acc

/-- `Record::createBatchFromJson` after `json::parse` has produced a
json value: the element loop over the value.  For a non-array value
every loop iteration throws on the integer indexing and is caught (a
null value has size zero, so the loop body never runs), hence the result
is empty either way. -/
def Record.createBatchFromJsonParsed (j : Json) : List Record :=
  match j with
  | .arr l => Record.batchLoop l []
  | _ => []

/-- Whitespace characters of the JSON grammar. -/
def isJsonWs (c : Char) : Bool :=
  c = ' ' || c = '\n' || c = '\t' || c = '\r'

/-- Drop leading JSON whitespace. -/
def skipWs : List Char → List Char
  | [] => []
  | c :: rest => if isJsonWs c then skipWs rest else c :: rest

/-- Take a maximal run of decimal digits. -/
def takeDigits : List Char → (List Char × List Char)
  | [] => ([], [])
  | c :: rest =>
    if c.isDigit then
      let p := takeDigits rest
      (c :: p.1, p.2)
    else ([], c :: rest)

/-- Numeric value of a digit run. -/
def digitsToNat (ds : List Char) : Nat :=
  ds.foldl (fun n c => n * 10 + (c.toNat - 48)) 0

/-- Parse a JSON number: optional minus sign, integer part, optional
fraction, optional exponent.  Values are exact rationals. -/
def parseNumber (cs : List Char) : Option (Rat × List Char) :=
  let signed : Bool × List Char :=
    match cs with
    | '-' :: rest => (true, rest)
    | _ => (false, cs)
  let ip := takeDigits signed.2
  if ip.1.isEmpty then none
  else
    let fracStep : Option (Rat × List Char) :=
      match ip.2 with
      | '.' :: rest =>
        let fp := takeDigits rest
        if fp.1.isEmpty then none
        else some ((digitsToNat fp.1 : Rat) / ((10 : Rat) ^ fp.1.length), fp.2)
      | _ => some (0, ip.2)
    match fracStep with
    | none => none
    | some (fv, cs2) =>
      let expStep : Option (Rat × List Char) :=
        match cs2 with
        | 'e' :: rest | 'E' :: rest =>
          let esigned : Bool × List Char :=
            match rest with
            | '-' :: r2 => (true, r2)
            | '+' :: r2 => (false, r2)
            | _ => (false, rest)
          let ep := takeDigits esigned.2
          if ep.1.isEmpty then none
          else
            let e : Rat :=
              if esigned.1 then ((10 : Rat) ^ (digitsToNat ep.1))⁻¹
              else (10 : Rat) ^ (digitsToNat ep.1)
            some (e, ep.2)
        | _ => some (1, cs2)
      match expStep with
      | none => none
      | some (ev, cs3) =>
        let mag : Rat := ((digitsToNat ip.1 : Rat) + fv) * ev
        some (if signed.1 then -mag else mag, cs3)

/-- Parse the remainder of a JSON string literal (after the opening
quote), with the common escape sequences. -/
def parseStringRest : List Char → Option (String × List Char)
  | [] => none
  | '"' :: rest => some ("", rest)
  | '\\' :: e :: rest => do
    let c ←
      match e with
      | '"' => some '"'
      | '\\' => some '\\'
      | '/' => some '/'
      | 'n' => some '\n'
      | 't' => some '\t'
      | 'r' => some '\r'
      | _ => none
    let p ← parseStringRest rest
    return (String.mk (c :: p.1.data), p.2)
  | c :: rest => do
    let p ← parseStringRest rest
    return (String.mk (c :: p.1.data), p.2)

mutual

/-- Modelled from the spec: `nlohmann::json::parse` (an external library
dependency); a recursive-descent parser for the JSON wire format of spec
§6, fuelled for termination.  `none` models a `parse_error` exception. -/
def parseVal : Nat → List Char → Option (Json × List Char)
  | 0, _ => none
  | fuel + 1, cs =>
    match skipWs cs with
    | 'n' :: 'u' :: 'l' :: 'l' :: rest => some (.null, rest)
    | 't' :: 'r' :: 'u' :: 'e' :: rest => some (.bool true, rest)
    | 'f' :: 'a' :: 'l' :: 's' :: 'e' :: rest => some (.bool false, rest)
    | '"' :: rest => (parseStringRest rest).map (fun p => (.str p.1, p.2))
    | '[' :: rest =>
      (match skipWs rest with
       | ']' :: r2 => some (.arr [], r2)
       | cs2 => parseItems fuel cs2 [])
    | '\x7b' :: rest =>
      (match skipWs rest with
       | '\x7d' :: r2 => some (.obj [], r2)
       | cs2 => parseMembers fuel cs2 [])
    | cs1 => (parseNumber cs1).map (fun p => (.num p.1, p.2))

/-- Array elements after the opening bracket. -/
def parseItems : Nat → List Char → List Json → Option (Json × List Char)
  | 0, _, _ => none
  | fuel + 1, cs, acc => do
    let p ← parseVal fuel cs
    match skipWs p.2 with
    | ',' :: r2 => parseItems fuel r2 (acc ++ [p.1])
    | ']' :: r2 => some (.arr (acc ++ [p.1]), r2)
    | _ => none

/-- Object members after the opening brace; duplicate keys overwrite, as
in `nlohmann::json`. -/
def parseMembers :
    Nat → List Char → List (String × Json) → Option (Json × List Char)
  | 0, _, _ => none
  | fuel + 1, cs, acc =>
    match skipWs cs with
    | '"' :: r => do
      let kp ← parseStringRest r
      match skipWs kp.2 with
      | ':' :: r2 => do
        let vp ← parseVal fuel r2
        match skipWs vp.2 with
        | ',' :: r4 => parseMembers fuel r4 (Json.setKey acc kp.1 vp.1)
        | '\x7d' :: r4 => some (.obj (Json.setKey acc kp.1 vp.1), r4)
        | _ => none
      | _ => none
    | _ => none

end

/-- Modelled from the spec: `nlohmann::json::parse` on a whole string;
trailing garbage is a parse error. -/
def Json.parse (s : String) : Option Json :=
  match parseVal (2 * s.length + 2) s.data with
  | some (v, rest) => if (skipWs rest).isEmpty then some v else none
  | none => none

/-- `Record::createBatchFromJson` on the wire string: `json::parse` runs
outside any try/catch, so a parse error propagates to the caller
(`none`); afterwards the per-element loop never throws. -/
def Record.createBatchFromJson (json_str : String) : Option (List Record) :=
  match Json.parse json_str with
  | none => none
  | some j => some (Record.createBatchFromJsonParsed j)

/-- `Record::loadBatchFromJsonFile`.  The file system read is modelled by
the argument: `some s` when the file's contents can be read in full,
`none` when not (the C++ stream/buffer code then throws inside the `try`
block).  The C++ function returns `true` exactly when the model returns
`some parsed`; on `none` the C++ function returns `false` and leaves the
out-parameter `*records` untouched. -/
def Record.loadBatchFromJsonFile (file : Option String) :
    Option (List Record) :=
  match file with
  | none => none
  | some s => Record.createBatchFromJson s

/-- Validity of a `ClientCtrl` as a C++ struct value: the integral
fields fit their machine widths (`int` for `client_type`'s enum and the
thread budget). -/
def ClientCtrl.valid (c : ClientCtrl) : Prop :=
  inS 32 c.client_type ∧ inS 32 c.num_game_thread_used

/-- Validity of the opaque search options: the payload fits its width. -/
def TSOptions.valid (t : TSOptions) : Prop :=
  inS 64 t.payload

/-- Validity of a `ModelPair`: both `int64_t` versions fit, and the
search options are valid. -/
def ModelPair.valid (p : ModelPair) : Prop :=
  inS 64 p.black_ver ∧ inS 64 p.white_ver ∧ p.mcts_opt.valid

/-- Validity of a `MsgRequest`: both components are valid. -/
def MsgRequest.valid (m : MsgRequest) : Prop :=
  m.vers.valid ∧ m.client_ctrl.valid

/-- Validity of a `CoordRecord`: exactly `BOUND_COORD` bytes, each a
byte value — every C++ `unsigned char prob[BOUND_COORD]` satisfies
this. -/
def CoordRecord.valid (c : CoordRecord) : Prop :=
  c.prob.length = BOUND_COORD ∧ ∀ b ∈ c.prob, b < 256

/-- Validity of a `MsgResult`: the `int`/`int64_t` fields fit their
widths and every policy entry is a valid byte array. -/
def MsgResult.valid (m : MsgResult) : Prop :=
  inS 32 m.num_move ∧ (∀ i ∈ m.using_models, inS 64 i) ∧
    ∀ p ∈ m.policies, p.valid

/-- Validity of a `Record`: components valid and the provenance fields
fit their machine widths (`uint64_t` timestamps/ids, `int` seq). -/
def Record.valid (r : Record) : Prop :=
  r.request.valid ∧ r.result.valid ∧ r.timestamp < 2 ^ 64 ∧
    r.thread_id < 2 ^ 64 ∧ inS 32 r.seq

/-- Validity of a `ThreadState`: every field fits its machine width. -/
def ThreadState.valid (t : ThreadState) : Prop :=
  inS 32 t.thread_id ∧ inS 32 t.seq ∧ inS 32 t.move_idx ∧
    inS 64 t.black ∧ inS 64 t.white

/-- Validity of a `Records` collector: the state table is a map (keys
distinct), every entry is keyed by its own thread id — the invariant
`updateState` maintains — and all contained values are valid. -/
def Records.valid (rs : Records) : Prop :=
  (rs.states.map Prod.fst).Nodup ∧
    (∀ kv ∈ rs.states, kv.1 = kv.2.thread_id ∧ kv.2.valid) ∧
    ∀ r ∈ rs.records, r.valid

instance (c : ClientCtrl) : Decidable c.valid := by
  unfold ClientCtrl.valid; infer_instance

instance (t : TSOptions) : Decidable t.valid := by
  unfold TSOptions.valid; infer_instance

instance (p : ModelPair) : Decidable p.valid := by
  unfold ModelPair.valid; infer_instance

instance (m : MsgRequest) : Decidable m.valid := by
  unfold MsgRequest.valid; infer_instance

instance (c : CoordRecord) : Decidable c.valid := by
  unfold CoordRecord.valid; infer_instance

instance (m : MsgResult) : Decidable m.valid := by
  unfold MsgResult.valid; infer_instance

instance (r : Record) : Decidable r.valid := by
  unfold Record.valid; infer_instance

instance (t : ThreadState) : Decidable t.valid := by
  unfold ThreadState.valid; infer_instance

instance (rs : Records) : Decidable rs.valid := by
  unfold Records.valid; infer_instance

/-- The last `updateState` argument with a given thread id in a call
sequence, if any: the value the spec's last-write-wins contract
predicts. -/
def lastWrite (tss : List ThreadState) (id : Int) : Option ThreadState :=
  tss.foldl (fun acc ts => if ts.thread_id = id then some ts else acc) none

/-- A concrete valid record used to instantiate the batch-decoding and
round-trip properties: a self-play request at version 5 with a finished
42-move game. -/
def wRec1 : Record :=
  { request := { vers := { black_ver := 5, white_ver := -1, mcts_opt := {} },
                 client_ctrl := {} },
    result := { num_move := 42, reward := 1, content := "g1",
                values := [1, 0] },
    timestamp := 100, thread_id := 3, seq := 7, pri := 0, offline := false }

/-- A second concrete valid record (an evaluation game). -/
def wRec3 : Record :=
  { request := { vers := { black_ver := 5, white_ver := 7, mcts_opt := {} },
                 client_ctrl := { player_swap := true } },
    result := { num_move := 9, reward := -1, content := "g3", values := [] },
    timestamp := 101, thread_id := 4, seq := 8, pri := 1, offline := true }

/-- The middle element of the 3-element batch: the serialization of a
record with its required `seq` field erased, so its parse throws. -/
def jBad : Json :=
  (Record.setJsonFields {} .null).eraseKey "seq"

/-- Two thread states with the same thread id and different move
indices, used to instantiate the upsert property. -/
def wTs1 : ThreadState :=
  { thread_id := 1, seq := 2, move_idx := 4, black := 5, white := -1 }

/-- The later state for thread 1. -/
def wTs2 : ThreadState :=
  { thread_id := 1, seq := 2, move_idx := 9, black := 5, white := -1 }

/-- A json MsgResult whose per-move arrays are non-empty but violate
`len(policies) == len(values) <= num_move`: one policy, one value, zero
moves. -/
def jC7 : Json :=
  .obj [("num_move", .num 0), ("reward", .num 0), ("content", .str ""),
        ("black_never_resign", .bool false),
        ("white_never_resign", .bool false),
        ("values", .arr [.num 1]),
        ("policies", .arr [.arr [.num 5]])]

/-- A json MsgRequest whose versions denote self-play and whose
client-control object lacks both the `player_swap` and the `async`
keys. -/
def jC4req : Json :=
  .obj [("vers",
          ModelPair.setJsonFields
            { black_ver := 5, white_ver := -1, mcts_opt := {} } .null),
        ("client_ctrl",
          ((ClientCtrl.setJsonFields {} .null).eraseKey
              "player_swap").eraseKey "async")]

/-- A json MsgResult with equal-length per-move arrays not exceeding
`num_move`: the shape on which the C7 invariant does hold. -/
def jC7W : Json :=
  .obj [("num_move", .num 1), ("reward", .num 0), ("content", .str ""),
        ("black_never_resign", .bool false),
        ("white_never_resign", .bool false),
        ("values", .arr [.num 1]),
        ("policies", .arr [.arr [.num 5]])]

/-- The MsgResult value `jC7W` parses to. -/
def rC7W : MsgResult :=
  { num_move := 1, reward := 0, content := "", black_never_resign := false,
    white_never_resign := false, using_models := [], values := [1],
    policies := [{ prob := 5 :: List.replicate (BOUND_COORD - 1) 0 }] }

theorem sWrap_eq_of_inS {w : Nat} {i : Int} (hw : 0 < w) (h : inS w i) :
    sWrap w i = i := by
  obtain ⟨h1, h2⟩ := h
  unfold sWrap
  have h2w : (2 : Int) ^ w = 2 ^ (w - 1) * 2 := by
    conv_lhs => rw [show w = (w - 1) + 1 by omega]
    rw [pow_succ]
  have h0 : (0 : Int) ≤ i + 2 ^ (w - 1) := by omega
  have hlt : i + 2 ^ (w - 1) < 2 ^ w := by rw [h2w]; omega
  rw [Int.emod_eq_of_lt h0 hlt]
  omega

theorem uWrap_eq_of_lt {w : Nat} {n : Nat} (h : n < 2 ^ w) :
    uWrap w (n : Int) = n := by
  unfold uWrap
  have h0 : (0 : Int) ≤ (n : Int) := Int.ofNat_nonneg n
  have hlt : ((n : Int)) < (2 : Int) ^ w := by exact_mod_cast h
  rw [Int.emod_eq_of_lt h0 hlt]
  simp

@[simp]
theorem Json.lookup_setKey_self (kvs : List (String × Json)) (k : String) (v : Json) :
    (Json.setKey kvs k v).lookup k = some v := by
  induction kvs with
  | nil => simp [Json.setKey, List.lookup]
  | cons hd tl ih =>
    obtain ⟨k1, v1⟩ := hd
    by_cases h : k1 = k
    · simp [Json.setKey, h, List.lookup]
    · have hb : (k == k1) = false := beq_eq_false_iff_ne.mpr (Ne.symm h)
      simp [Json.setKey, h, List.lookup, hb, ih]

@[simp]
theorem Json.find_set_self (j : Json) (k : String) (v : Json) :
    (j.set k v).find k = some v := by
  cases j <;> simp [Json.set, Json.find]

theorem Json.lookup_setKey_ne (kvs : List (String × Json)) {k k' : String}
    (v : Json) (h : k' ≠ k) :
    (Json.setKey kvs k v).lookup k' = kvs.lookup k' := by
  have hb : (k' == k) = false := beq_eq_false_iff_ne.mpr h
  induction kvs with
  | nil => simp [Json.setKey, List.lookup, hb]
  | cons hd tl ih =>
    obtain ⟨k1, v1⟩ := hd
    by_cases h1 : k1 = k
    · subst h1
      simp [Json.setKey, List.lookup, hb]
    · simp [Json.setKey, h1, List.lookup, ih]

theorem Json.find_set_ne (j : Json) {k k' : String} (v : Json) (h : k' ≠ k) :
    (j.set k v).find k' = j.find k' := by
  cases j <;> simp [Json.set, Json.find, Json.lookup_setKey_ne _ _ h, h]

theorem Json.setKey_setKey (kvs : List (String × Json)) (k : String)
    (v v' : Json) : Json.setKey (Json.setKey kvs k v) k v' = Json.setKey kvs k v' := by
  induction kvs with
  | nil => simp [Json.setKey]
  | cons hd tl ih =>
    obtain ⟨k1, v1⟩ := hd
    by_cases h : k1 = k
    · simp [Json.setKey, h]
    · simp [Json.setKey, h, ih]

theorem Json.set_set_same (j : Json) (k : String) (v v' : Json) :
    (j.set k v).set k v' = j.set k v' := by
  cases j <;> simp [Json.set, Json.setKey_setKey]

theorem Json.setKey_lookup_eq (kvs : List (String × Json)) (k : String)
    (v : Json) (h : kvs.lookup k = some v) : Json.setKey kvs k v = kvs := by
  induction kvs with
  | nil => simp [List.lookup] at h
  | cons hd tl ih =>
    obtain ⟨k1, v1⟩ := hd
    by_cases h1 : k1 = k
    · subst h1
      simp [List.lookup] at h
      simp [Json.setKey, h]
    · have hb : (k == k1) = false := beq_eq_false_iff_ne.mpr (Ne.symm h1)
      simp [List.lookup, hb] at h
      simp [Json.setKey, h1, ih h]

theorem Json.set_find_eq {j : Json} {k : String} {v : Json}
    (h : j.find k = some v) : j.set k v = j := by
  cases j <;> simp [Json.find] at h
  simp [Json.set, Json.setKey_lookup_eq _ _ _ h]

theorem Json.foldl_pushKey_arr {α : Type} (k : String) (f : α → Json)
    (xs : List α) (j : Json) (l0 : List Json)
    (hj : j.find k = some (.arr l0)) :
    xs.foldl (fun jj x => jj.pushKey k (f x)) j =
      j.set k (.arr (l0 ++ xs.map f)) := by
  induction xs generalizing j l0 with
  | nil =>
    simp [Json.set_find_eq hj]
  | cons x rest ih =>
    have hpush : j.pushKey k (f x) = j.set k (.arr (l0 ++ [f x])) := by
      simp [Json.pushKey, hj]
    rw [List.foldl_cons, hpush,
        ih (j.set k (.arr (l0 ++ [f x]))) (l0 ++ [f x]) (by simp),
        Json.set_set_same]
    simp

theorem Json.foldl_pushKey_absent {α : Type} (k : String) (f : α → Json)
    (x : α) (rest : List α) (j : Json) (hj : j.find k = none) :
    (x :: rest).foldl (fun jj y => jj.pushKey k (f y)) j =
      j.set k (.arr ((x :: rest).map f)) := by
  have hpush : j.pushKey k (f x) = j.set k (.arr [f x]) := by
    simp [Json.pushKey, hj]
  rw [List.foldl_cons, hpush,
      Json.foldl_pushKey_arr k f rest _ [f x] (by simp),
      Json.set_set_same]
  simp

theorem mapM_getNum_map (l : List Rat) :
    (l.map (fun v => Json.num v)).mapM Json.getNum = some l := by
  induction l with
  | nil =>
    rw [List.map_nil, List.mapM_nil]
    rfl
  | cons a tl ih =>
    rw [List.map_cons, List.mapM_cons, ih]
    simp [Json.getNum, Option.bind]

theorem mapM_getWholeNum_map_int (l : List Int) :
    (l.map (fun (i : Int) => Json.num (i : Rat))).mapM Json.getWholeNum =
      some l := by
  induction l with
  | nil =>
    rw [List.map_nil, List.mapM_nil]
    rfl
  | cons a tl ih =>
    rw [List.map_cons, List.mapM_cons, ih]
    simp [Json.getWholeNum]

theorem mapM_getWholeNum_map_nat (l : List Nat) :
    (l.map (fun (b : Nat) => Json.num (b : Rat))).mapM Json.getWholeNum =
      some (l.map (fun (b : Nat) => (b : Int))) := by
  induction l with
  | nil =>
    rw [List.map_nil, List.mapM_nil, List.map_nil]
    rfl
  | cons a tl ih =>
    rw [List.map_cons, List.mapM_cons, ih, List.map_cons]
    simp [Json.getWholeNum]

theorem clientCtrl_roundtrip (c : ClientCtrl) (pso : Bool) (h : c.valid) :
    ClientCtrl.createFromJson (c.setJsonFields .null) pso = some c := by
  obtain ⟨h1, h2⟩ := h
  have e1 := sWrap_eq_of_inS (by norm_num) h1
  have e2 := sWrap_eq_of_inS (by norm_num) h2
  cases pso <;>
  simp [ClientCtrl.setJsonFields, ClientCtrl.createFromJson, Json.set,
        Json.setKey, loadInt, loadNum, loadOptBool, loadBool, Json.find,
        List.lookup, Json.getWholeNum, Json.getNum, Json.getBool,
        Rat.num_intCast, Rat.den_intCast, Int.tdiv_one, e1, e2]

theorem tsOptions_roundtrip (t : TSOptions) (h : t.valid) :
    TSOptions.createFromJson (t.setJsonFields .null) = some t := by
  have e1 := sWrap_eq_of_inS (by norm_num) h
  simp [TSOptions.setJsonFields, TSOptions.createFromJson, Json.set,
        Json.setKey, loadInt, Json.find, List.lookup, Json.getWholeNum,
        Rat.num_intCast, Rat.den_intCast, Int.tdiv_one, e1]

theorem modelPair_roundtrip (p : ModelPair) (h : p.valid) :
    ModelPair.createFromJson (p.setJsonFields .null) = some p := by
  obtain ⟨h1, h2, h3⟩ := h
  have e1 := sWrap_eq_of_inS (by norm_num) h1
  have e2 := sWrap_eq_of_inS (by norm_num) h2
  simp [ModelPair.setJsonFields, ModelPair.createFromJson, Json.set,
        Json.setKey, loadInt, Json.find, List.lookup, Json.getWholeNum,
        Rat.num_intCast, Rat.den_intCast, Int.tdiv_one, e1, e2,
        tsOptions_roundtrip p.mcts_opt h3]

theorem msgRequest_roundtrip (m : MsgRequest) (h : m.valid) :
    MsgRequest.createFromJson (m.setJsonFields .null) = some m := by
  obtain ⟨h1, h2⟩ := h
  simp [MsgRequest.setJsonFields, MsgRequest.createFromJson, Json.set,
        Json.setKey, Json.find, List.lookup,
        modelPair_roundtrip m.vers h1,
        clientCtrl_roundtrip m.client_ctrl _ h2]

theorem coordRecord_roundtrip (c : CoordRecord) (h : c.valid) :
    CoordRecord.createFromJson
      (c.prob.map (fun (b : Nat) => Json.num (b : Rat))) = some c := by
  obtain ⟨hlen, hbytes⟩ := h
  have hw : (c.prob.map (fun (b : Nat) => (b : Int))).map (fun i => uWrap 8 i) =
      c.prob := by
    rw [List.map_map]
    have he : ∀ b ∈ c.prob, ((fun i => uWrap 8 i) ∘ fun (b : Nat) => (b : Int)) b
        = id b := by
      intro b hb
      have hb256 : b < 2 ^ 8 := by
        have := hbytes b hb
        omega
      simpa using uWrap_eq_of_lt hb256
    rw [List.map_congr_left he, List.map_id]
  unfold CoordRecord.createFromJson
  rw [mapM_getWholeNum_map_nat]
  simp only [Option.bind_eq_bind, Option.some_bind, hw]
  rw [List.take_of_length_le (by rw [hlen]), hlen]
  rw [show (List.replicate BOUND_COORD 0).drop BOUND_COORD = [] by simp]
  simp

theorem mapM_policyElem (ps : List CoordRecord) (h : ∀ p ∈ ps, p.valid) :
    (ps.map CoordRecord.toJsonArr).mapM MsgResult.policyElem = some ps := by
  induction ps with
  | nil =>
    rw [List.map_nil, List.mapM_nil]
    rfl
  | cons p tl ih =>
    rw [List.map_cons, List.mapM_cons]
    have hp : MsgResult.policyElem p.toJsonArr = some p := by
      simp [CoordRecord.toJsonArr, MsgResult.policyElem,
            coordRecord_roundtrip p (h p (by simp))]
    rw [hp, ih (fun q hq => h q (List.mem_cons_of_mem _ hq))]
    rfl

theorem map_sWrap64_eq (l : List Int) (h : ∀ i ∈ l, inS 64 i) :
    l.map (sWrap 64) = l := by
  have he : ∀ i ∈ l, sWrap 64 i = id i := by
    intro i hi
    simpa using sWrap_eq_of_inS (by norm_num) (h i hi)
  rw [List.map_congr_left he, List.map_id]

theorem mapM_loop_getNum_map (l : List Rat) :
    List.mapM.loop Json.getNum (l.map (fun v => Json.num v)) [] = some l :=
  mapM_getNum_map l

theorem mapM_loop_getWholeNum_map_int (l : List Int) :
    List.mapM.loop Json.getWholeNum
      (l.map (fun (i : Int) => Json.num (i : Rat))) [] = some l :=
  mapM_getWholeNum_map_int l

theorem mapM_loop_getWholeNum_map_nat (l : List Nat) :
    List.mapM.loop Json.getWholeNum
      (l.map (fun (b : Nat) => Json.num (b : Rat))) [] =
      some (l.map (fun (b : Nat) => (b : Int))) :=
  mapM_getWholeNum_map_nat l

theorem mapM_loop_policyElem (ps : List CoordRecord) (h : ∀ p ∈ ps, p.valid) :
    List.mapM.loop MsgResult.policyElem (ps.map CoordRecord.toJsonArr) [] =
      some ps :=
  mapM_policyElem ps h

theorem msgResult_roundtrip (m : MsgResult) (h : m.valid) :
    MsgResult.createFromJson (m.setJsonFields .null) = some m := by
  obtain ⟨h1, h2, h3⟩ := h
  have e1 := sWrap_eq_of_inS (by norm_num) h1
  have hum := map_sWrap64_eq m.using_models h2
  rcases m with ⟨nm, rew, bnr, wnr, um, ct, pol, vals⟩
  simp only at e1 hum h3
  cases pol with
  | nil =>
    simp [MsgResult.setJsonFields, MsgResult.createFromJson, Json.set,
          Json.setKey, loadInt, loadNum, loadStr, loadBool, loadVecNum,
          loadVecInt64Opt, MsgResult.loadPolicies, Json.find, List.lookup,
          Json.getWholeNum, Json.getNum, Json.getBool, Json.getStr,
          Rat.num_intCast, Rat.den_intCast, Int.tdiv_one, e1, hum,
          mapM_getNum_map, mapM_getWholeNum_map_int, mapM_loop_getNum_map,
          mapM_loop_getWholeNum_map_int]
  | cons p ps =>
    simp only [MsgResult.setJsonFields]
    rw [Json.foldl_pushKey_absent "policies" CoordRecord.toJsonArr p ps _
        (by simp [Json.set, Json.setKey, Json.find, List.lookup])]
    have hpols : List.mapM.loop MsgResult.policyElem
        (p.toJsonArr :: ps.map CoordRecord.toJsonArr) [] = some (p :: ps) := by
      simpa using mapM_loop_policyElem (p :: ps) h3
    simp [hpols, MsgResult.createFromJson, Json.set, Json.setKey, loadInt, loadNum,
          loadStr, loadBool, loadVecNum, loadVecInt64Opt,
          MsgResult.loadPolicies, Json.find, List.lookup, Json.getWholeNum,
          Json.getNum, Json.getBool, Json.getStr, Rat.num_intCast,
          Rat.den_intCast, Int.tdiv_one, e1, hum, mapM_getNum_map,
          mapM_getWholeNum_map_int, mapM_loop_getNum_map,
          mapM_loop_getWholeNum_map_int, mapM_policyElem (p :: ps) h3,
          mapM_loop_policyElem (p :: ps) h3]

theorem threadState_roundtrip (t : ThreadState) (h : t.valid) :
    ThreadState.createFromJson (t.setJsonFields .null) = some t := by
  obtain ⟨h1, h2, h3, h4, h5⟩ := h
  have e1 := sWrap_eq_of_inS (by norm_num) h1
  have e2 := sWrap_eq_of_inS (by norm_num) h2
  have e3 := sWrap_eq_of_inS (by norm_num) h3
  have e4 := sWrap_eq_of_inS (by norm_num) h4
  have e5 := sWrap_eq_of_inS (by norm_num) h5
  simp [ThreadState.setJsonFields, ThreadState.createFromJson, Json.set,
        Json.setKey, loadInt, Json.find, List.lookup, Json.getWholeNum,
        Rat.num_intCast, Rat.den_intCast, Int.tdiv_one, e1, e2, e3, e4, e5]

theorem record_roundtrip (r : Record) (h : r.valid) :
    Record.createFromJson (r.setJsonFields .null) = some r := by
  obtain ⟨hreq, hres, hts, htid, hseq⟩ := h
  have e1 := uWrap_eq_of_lt hts
  have e2 := uWrap_eq_of_lt htid
  have e3 := sWrap_eq_of_inS (by norm_num) hseq
  simp [Record.setJsonFields, Record.createFromJson, Json.set, Json.setKey,
        loadUInt, loadInt, loadNum, loadOptBool, Json.find, List.lookup,
        Json.getWholeNum, Json.getNum, Json.getBool, Rat.num_intCast,
        Rat.den_intCast, Rat.num_natCast, Rat.den_natCast, Int.tdiv_one,
        e1, e2, e3, msgRequest_roundtrip r.request hreq,
        msgResult_roundtrip r.result hres]

theorem mapSetKey_append (acc : List (Int × ThreadState)) (k : Int)
    (v : ThreadState) (h : ∀ kv ∈ acc, kv.1 ≠ k) :
    mapSetKey acc k v = acc ++ [(k, v)] := by
  induction acc with
  | nil => simp [mapSetKey]
  | cons hd tl ih =>
    have hne : hd.1 ≠ k := h hd (by simp)
    simp [mapSetKey, hne, ih (fun kv hkv => h kv (List.mem_cons_of_mem _ hkv))]

theorem foldlM_states_roundtrip (l : List (Int × ThreadState)) :
    ∀ acc : List (Int × ThreadState), (l.map Prod.fst).Nodup →
      (∀ kv ∈ l, kv.1 = kv.2.thread_id ∧ kv.2.valid) →
      (∀ kv ∈ l, ∀ kv2 ∈ acc, kv2.1 ≠ kv.1) →
      (l.map (fun t => t.2.setJsonFields Json.null)).foldlM
        (fun acc ji => do
          let t ← ThreadState.createFromJson ji
          return mapSetKey acc t.thread_id t) acc = some (acc ++ l) := by
  induction l with
  | nil =>
    intro acc _ _ _
    simp
  | cons kv tl ih =>
    intro acc hnodup hval hfresh
    obtain ⟨hk, hv⟩ := hval kv (by simp)
    have hfr : ∀ kv2 ∈ acc, kv2.1 ≠ kv.2.thread_id := by
      intro kv2 h2
      rw [← hk]
      exact hfresh kv (by simp) kv2 h2
    simp only [List.map_cons, List.foldlM_cons]
    rw [threadState_roundtrip kv.2 hv]
    simp only [Option.bind_eq_bind, Option.some_bind, Option.pure_def]
    have hstep : acc ++ [(kv.2.thread_id, kv.2)] = acc ++ [kv] := by
      rw [← hk]
    have htl := ih (acc ++ [kv])
      (by
        rw [List.map_cons] at hnodup
        exact hnodup.of_cons)
      (fun q hq => hval q (List.mem_cons_of_mem _ hq))
      (by
        intro q hq kv2 hkv2
        rcases List.mem_append.mp hkv2 with hin | hin
        · exact hfresh q (List.mem_cons_of_mem _ hq) kv2 hin
        · rw [List.mem_singleton.mp hin]
          rw [List.map_cons] at hnodup
          intro hcontra
          exact (List.nodup_cons.mp hnodup).1
            (hcontra ▸ List.mem_map_of_mem Prod.fst hq))
    simp only [Option.pure_def, Option.bind_eq_bind] at htl
    rw [mapSetKey_append acc kv.2.thread_id kv.2 hfr, hstep, htl]
    simp

theorem mapM_record_roundtrip (l : List Record) (h : ∀ r ∈ l, r.valid) :
    (l.map (fun r => Record.setJsonFields r Json.null)).mapM
      Record.createFromJson = some l := by
  induction l with
  | nil =>
    rw [List.map_nil, List.mapM_nil]
    rfl
  | cons r tl ih =>
    rw [List.map_cons, List.mapM_cons, record_roundtrip r (h r (by simp)),
        ih (fun q hq => h q (List.mem_cons_of_mem _ hq))]
    rfl

theorem mapM_loop_record_roundtrip (l : List Record) (h : ∀ r ∈ l, r.valid) :
    List.mapM.loop Record.createFromJson
      (l.map (fun r => Record.setJsonFields r Json.null)) [] = some l :=
  mapM_record_roundtrip l h

theorem records_roundtrip (rs : Records) (h : rs.valid) :
    Records.createFromJson (rs.setJsonFields .null) = some rs := by
  obtain ⟨hnodup, hstv, hrecv⟩ := h
  rcases rs with ⟨id, sts, recs⟩
  simp only at hnodup hstv hrecv
  cases sts with
  | nil =>
    cases recs with
    | nil =>
      simp [Records.setJsonFields, Records.createFromJson, Json.set,
            Json.setKey, loadStr, Records.loadStates, Records.loadRecords,
            Json.find, List.lookup, Json.getStr]
    | cons r rtl =>
      simp only [Records.setJsonFields, List.foldl_nil]
      rw [Json.foldl_pushKey_absent "records"
            (fun r => Record.setJsonFields r Json.null) r rtl _
            (by simp [Json.set, Json.setKey, Json.find, List.lookup])]
      have hrecs := mapM_loop_record_roundtrip (r :: rtl) hrecv
      simp only [List.map_cons] at hrecs
      simp [hrecs, Records.createFromJson, Json.set, Json.setKey, loadStr,
            Records.loadStates, Records.loadRecords, Json.find, List.lookup,
            Json.getStr]
  | cons s stl =>
    cases recs with
    | nil =>
      simp only [Records.setJsonFields, List.foldl_nil]
      rw [Json.foldl_pushKey_absent "states"
            (fun t => ThreadState.setJsonFields t.2 Json.null) s stl _
            (by simp [Json.set, Json.setKey, Json.find, List.lookup])]
      have hsts := foldlM_states_roundtrip (s :: stl) [] hnodup hstv (by simp)
      simp only [List.map_cons, List.nil_append, Option.pure_def,
                 Option.bind_eq_bind] at hsts
      simp [hsts, Records.createFromJson, Json.set, Json.setKey, loadStr,
            Records.loadStates, Records.loadRecords, Json.find, List.lookup,
            Json.getStr]
    | cons r rtl =>
      simp only [Records.setJsonFields]
      rw [Json.foldl_pushKey_absent "states"
            (fun t => ThreadState.setJsonFields t.2 Json.null) s stl _
            (by simp [Json.set, Json.setKey, Json.find, List.lookup])]
      rw [Json.foldl_pushKey_absent "records"
            (fun r => Record.setJsonFields r Json.null) r rtl _
            (by simp [Json.set, Json.setKey, Json.find, List.lookup,
                      Json.find_set_ne])]
      have hsts := foldlM_states_roundtrip (s :: stl) [] hnodup hstv (by simp)
      simp only [List.map_cons, List.nil_append, Option.pure_def,
                 Option.bind_eq_bind] at hsts
      have hrecs := mapM_loop_record_roundtrip (r :: rtl) hrecv
      simp only [List.map_cons] at hrecs
      simp [hsts, hrecs, Records.createFromJson, Json.set, Json.setKey,
            loadStr, Records.loadStates, Records.loadRecords, Json.find,
            List.lookup, Json.getStr]

theorem lookup_filter_ne {α : Type} (kvs : List (String × α)) {k k' : String}
    (h : k' ≠ k) :
    (kvs.filter (fun kv => kv.1 != k)).lookup k' = kvs.lookup k' := by
  induction kvs with
  | nil => simp
  | cons hd tl ih =>
    obtain ⟨k1, v1⟩ := hd
    by_cases h1 : k1 = k
    · subst h1
      have hb : (k' == k1) = false := beq_eq_false_iff_ne.mpr h
      simp [List.lookup, hb, ih]
    · simp only [List.filter_cons]
      have hb : (k1 != k) = true := by simpa using h1
      simp [hb, List.lookup, ih]

theorem Json.find_eraseKey_ne (j : Json) {k k' : String} (h : k' ≠ k) :
    (j.eraseKey k).find k' = j.find k' := by
  cases j <;> simp [Json.eraseKey, Json.find, lookup_filter_ne _ h]

theorem Json.find_eraseKey_self (j : Json) (k : String) :
    (j.eraseKey k).find k = none := by
  cases j with
  | obj kvs =>
    simp only [Json.eraseKey, Json.find]
    induction kvs with
    | nil => simp
    | cons hd tl ih =>
      obtain ⟨k1, v1⟩ := hd
      by_cases h1 : k1 = k
      · subst h1
        simp [ih]
      · have hb : (k1 != k) = true := by simpa using h1
        have hb2 : (k == k1) = false := beq_eq_false_iff_ne.mpr (Ne.symm h1)
        simp [List.filter_cons, hb, List.lookup, hb2, ih]
  | null => rfl
  | bool b => rfl
  | num q => rfl
  | str s => rfl
  | arr l => rfl

theorem mapSetKey_lookup_self (l : List (Int × ThreadState)) (k : Int)
    (v : ThreadState) : (mapSetKey l k v).lookup k = some v := by
  induction l with
  | nil => simp [mapSetKey, List.lookup]
  | cons hd tl ih =>
    obtain ⟨k1, v1⟩ := hd
    by_cases h : k1 = k
    · simp [mapSetKey, h, List.lookup]
    · have hb : (k == k1) = false := beq_eq_false_iff_ne.mpr (Ne.symm h)
      simp [mapSetKey, h, List.lookup, hb, ih]

theorem mapSetKey_lookup_ne (l : List (Int × ThreadState)) {k k' : Int}
    (v : ThreadState) (h : k' ≠ k) :
    (mapSetKey l k v).lookup k' = l.lookup k' := by
  have hb : (k' == k) = false := beq_eq_false_iff_ne.mpr h
  induction l with
  | nil => simp [mapSetKey, List.lookup, hb]
  | cons hd tl ih =>
    obtain ⟨k1, v1⟩ := hd
    by_cases h1 : k1 = k
    · subst h1
      simp [mapSetKey, List.lookup, hb]
    · simp [mapSetKey, h1, List.lookup, ih]

theorem mapSetKey_keys (l : List (Int × ThreadState)) (k : Int)
    (v : ThreadState) :
    (mapSetKey l k v).map Prod.fst =
      if k ∈ l.map Prod.fst then l.map Prod.fst else l.map Prod.fst ++ [k] := by
  induction l with
  | nil => simp [mapSetKey]
  | cons hd tl ih =>
    obtain ⟨k1, v1⟩ := hd
    by_cases h : k1 = k
    · subst h
      simp [mapSetKey]
    · simp only [mapSetKey, if_neg h, List.map_cons, List.mem_cons]
      rw [ih]
      by_cases hmem : k ∈ tl.map Prod.fst
      · simp [hmem, Ne.symm h]
      · simp [hmem, Ne.symm h]

theorem mapSetKey_keys_nodup (l : List (Int × ThreadState)) (k : Int)
    (v : ThreadState) (h : (l.map Prod.fst).Nodup) :
    ((mapSetKey l k v).map Prod.fst).Nodup := by
  rw [mapSetKey_keys]
  by_cases hmem : k ∈ l.map Prod.fst
  · simpa [hmem] using h
  · simp only [if_neg hmem]
    refine List.Nodup.append h (List.nodup_singleton k) ?_
    intro x hx hx2
    simp only [List.mem_singleton] at hx2
    subst hx2
    exact hmem hx

theorem lastWrite_foldl_acc (tl : List ThreadState) (id : Int)
    (a : Option ThreadState) :
    tl.foldl (fun acc ts => if ts.thread_id = id then some ts else acc) a =
      (lastWrite tl id).or a := by
  induction tl generalizing a with
  | nil => simp [lastWrite]
  | cons x xs ih =>
    have h2 : lastWrite (x :: xs) id =
        (lastWrite xs id).or (if x.thread_id = id then some x else none) := by
      show xs.foldl (fun acc ts => if ts.thread_id = id then some ts else acc)
        (if x.thread_id = id then some x else none) = _
      exact ih _
    rw [List.foldl_cons, ih, h2]
    by_cases hxi : x.thread_id = id
    · cases hlw : lastWrite xs id <;> simp [hxi, Option.or]
    · cases hlw : lastWrite xs id <;> simp [hxi, Option.or]

theorem mapM_some_length {α β : Type} (l : List α) (f : α → Option β)
    (l' : List β) (h : l.mapM f = some l') : l'.length = l.length := by
  induction l generalizing l' with
  | nil =>
    rw [List.mapM_nil] at h
    cases h
    rfl
  | cons a tl ih =>
    rw [List.mapM_cons] at h
    simp only [Option.bind_eq_bind, Option.bind_eq_some, Option.pure_def,
               Option.some.injEq] at h
    obtain ⟨b, hb, bs, hbs, hcons⟩ := h
    subst hcons
    simp [ih bs hbs]

/-- C3: for every ModelPair, `wait()` holds iff `black_ver < 0`, and
`is_selfplay()` holds iff `black_ver >= 0 && white_ver == -1`; the pair
{-1,-1} waits, {5,-1} is self-play, and {5,7} is neither.  Both
classifiers are total boolean functions of the two version integers
(whatever the opaque search options are), with no error path. -/
theorem c3_mode_classification :
    (∀ p : ModelPair, p.wait = true ↔ p.black_ver < 0) ∧
    (∀ p : ModelPair,
      p.is_selfplay = true ↔ 0 ≤ p.black_ver ∧ p.white_ver = -1) ∧
    (∀ m : TSOptions, ModelPair.wait ⟨-1, -1, m⟩ = true) ∧
    (∀ m : TSOptions, ModelPair.is_selfplay ⟨5, -1, m⟩ = true) ∧
    (∀ m : TSOptions, ModelPair.wait ⟨5, 7, m⟩ = false ∧
      ModelPair.is_selfplay ⟨5, 7, m⟩ = false) := by
  refine ⟨?_, ?_, ?_, ?_, ?_⟩ <;> intro p <;>
    simp [ModelPair.wait, ModelPair.is_selfplay]

/-- C8: `updateState` is an unconditional upsert keyed by thread id.
Starting from any collector whose state table is a map (distinct keys),
after any sequence of `updateState` calls the table still has distinct
keys, the entry for each id is the argument of the most recent call with
that id (`lastWrite`) and otherwise the initial entry, and an id is
present exactly when it was present initially or occurs in the call
sequence. -/
theorem c8_updateState_upsert :
    ∀ (tss : List ThreadState) (rs : Records),
      (rs.states.map Prod.fst).Nodup →
      (((tss.foldl Records.updateState rs).states.map Prod.fst).Nodup ∧
       ∀ id : Int,
         (tss.foldl Records.updateState rs).states.lookup id =
           (lastWrite tss id).or (rs.states.lookup id) ∧
         ((∃ kv ∈ (tss.foldl Records.updateState rs).states, kv.1 = id) ↔
           (∃ kv ∈ rs.states, kv.1 = id) ∨ ∃ ts ∈ tss, ts.thread_id = id)) := by
  intro tss
  induction tss with
  | nil =>
    intro rs h
    refine ⟨by simpa using h, ?_⟩
    intro id
    simp [lastWrite, Option.or]
  | cons ts tl ih =>
    intro rs h
    have hnd' : ((rs.updateState ts).states.map Prod.fst).Nodup := by
      simpa [Records.updateState] using
        mapSetKey_keys_nodup rs.states ts.thread_id ts h
    obtain ⟨hn, hrest⟩ := ih (rs.updateState ts) hnd'
    rw [List.foldl_cons]
    refine ⟨hn, ?_⟩
    intro id
    obtain ⟨hlook, hmem⟩ := hrest id
    constructor
    · rw [hlook]
      have hlw : lastWrite (ts :: tl) id =
          (lastWrite tl id).or (if ts.thread_id = id then some ts else none) := by
        show tl.foldl (fun acc t => if t.thread_id = id then some t else acc)
          (if ts.thread_id = id then some ts else none) = _
        exact lastWrite_foldl_acc tl id _
      rw [hlw]
      by_cases hti : ts.thread_id = id
      · have hself : (rs.updateState ts).states.lookup id = some ts := by
          rw [← hti]
          simpa [Records.updateState] using
            mapSetKey_lookup_self rs.states ts.thread_id ts
        rw [hself]
        cases hlw2 : lastWrite tl id <;> simp [hti, Option.or]
      · have hother : (rs.updateState ts).states.lookup id =
            rs.states.lookup id := by
          simpa [Records.updateState] using
            mapSetKey_lookup_ne rs.states ts (fun hc => hti hc.symm)
        rw [hother]
        cases hlw2 : lastWrite tl id <;> simp [hti, Option.or]
    · rw [hmem]
      have hm2 : id ∈ ((rs.updateState ts).states.map Prod.fst) ↔
          (id ∈ rs.states.map Prod.fst ∨ id = ts.thread_id) := by
        simp only [Records.updateState]
        rw [mapSetKey_keys]
        by_cases hmem2 : ts.thread_id ∈ rs.states.map Prod.fst
        · simp only [if_pos hmem2]
          constructor
          · exact Or.inl
          · rintro (hin | hin)
            · exact hin
            · exact hin ▸ hmem2
        · simp [if_neg hmem2, List.mem_append]
      have hm2e : (∃ kv ∈ (rs.updateState ts).states, kv.1 = id) ↔
          ((∃ kv ∈ rs.states, kv.1 = id) ∨ id = ts.thread_id) := by
        simpa [List.mem_map] using hm2
      rw [hm2e]
      simp only [List.mem_cons]
      constructor
      · rintro ((hin | hin) | hin)
        · exact Or.inl hin
        · exact Or.inr ⟨ts, Or.inl rfl, hin.symm⟩
        · obtain ⟨t, ht, hid⟩ := hin
          exact Or.inr ⟨t, Or.inr ht, hid⟩
      · rintro (hin | hin)
        · exact Or.inl (Or.inl hin)
        · obtain ⟨t, ht | ht, hid⟩ := hin
          · exact Or.inl (Or.inr (ht ▸ hid.symm))
          · exact Or.inr ⟨t, ht, hid⟩

/-- Witness for C8 at a concrete input: two updates for thread id 1 with
different move indices, starting from the fresh collector, leave a table
with distinct keys whose entry for id 1 is the later state. -/
theorem c8_updateState_upsert_witness :
    ((([wTs1, wTs2].foldl Records.updateState Records.init).states.map
        Prod.fst).Nodup) ∧
    ([wTs1, wTs2].foldl Records.updateState Records.init).states.lookup 1 =
      (lastWrite [wTs1, wTs2] 1).or (Records.init.states.lookup 1) :=
  ⟨(c8_updateState_upsert [wTs1, wTs2] Records.init (by decide)).1,
   ((c8_updateState_upsert [wTs1, wTs2] Records.init (by decide)).2 1).1⟩

/-- C9: collector emptiness tracks only the record list: a fresh
collector (either constructor) is empty; `isRecordEmpty` holds iff no
records were collected, and the state table may be non-empty while the
collector counts as empty; one `addRecord` makes it non-empty; `clear()`
makes it empty again and empties the state table. -/
theorem c9_collector_emptiness :
    Records.init.isRecordEmpty = true ∧
    (∀ id : String, (Records.initWithId id).isRecordEmpty = true) ∧
    (∀ rs : Records, rs.isRecordEmpty = true ↔ rs.records = []) ∧
    (Records.init.updateState wTs1).states ≠ [] ∧
    (Records.init.updateState wTs1).isRecordEmpty = true ∧
    (∀ (rs : Records) (r : Record),
      (rs.addRecord r).isRecordEmpty = false) ∧
    (∀ rs : Records,
      rs.clear.isRecordEmpty = true ∧ rs.clear.states = []) := by
  refine ⟨rfl, fun id => rfl, ?_, by decide, rfl, ?_, ?_⟩ <;>
    simp [Records.isRecordEmpty, Records.addRecord, Records.clear]

/-- C10: frame condition: `addRecord` only appends one record, leaving
identity and the whole state table unchanged; `updateState` only touches
the state entry for its argument's thread id, leaving identity, the
record list, and every other state entry unchanged. -/
theorem c10_frame_condition :
    (∀ (rs : Records) (r : Record),
      (rs.addRecord r).identity = rs.identity ∧
      (rs.addRecord r).states = rs.states ∧
      (rs.addRecord r).records = rs.records ++ [r]) ∧
    (∀ (rs : Records) (ts : ThreadState),
      (rs.updateState ts).identity = rs.identity ∧
      (rs.updateState ts).records = rs.records ∧
      (rs.updateState ts).states.lookup ts.thread_id = some ts ∧
      ∀ id : Int, id ≠ ts.thread_id →
        (rs.updateState ts).states.lookup id = rs.states.lookup id) := by
  constructor
  · intro rs r
    exact ⟨rfl, rfl, rfl⟩
  · intro rs ts
    refine ⟨rfl, rfl, ?_, ?_⟩
    · simpa [Records.updateState] using
        mapSetKey_lookup_self rs.states ts.thread_id ts
    · intro id hid
      simpa [Records.updateState] using mapSetKey_lookup_ne rs.states ts hid

/-- Witness for C10 at a concrete input: updating thread 1 in a
collector holding only an entry for thread 2 leaves the entry for id 2
unchanged. -/
theorem c10_frame_condition_witness :
    (2 : Int) ≠ wTs1.thread_id ∧
    ((Records.init.updateState { wTs1 with thread_id := 2 }).updateState
        wTs1).states.lookup 2 =
      (Records.init.updateState { wTs1 with thread_id := 2 }).states.lookup 2 :=
  ⟨by decide,
   ((c10_frame_condition.2
      (Records.init.updateState { wTs1 with thread_id := 2 }) wTs1).2.2.2 2
      (by decide))⟩

/-- C1: round-trip: for every valid MsgRequest (Request), MsgResult
(GameOutcome), Record (GameRecord), ThreadState and Records
(RecordCollector) value, deserializing the serialization returns the
value (field-wise, via derived structure equality).  Validity says the
Lean value denotes an actual C++ struct value: machine-integer fields in
range, policy byte arrays of the fixed width, and the state table a map
keyed by each entry's own thread id. -/
theorem c1_serialization_roundtrip :
    (∀ x : MsgRequest, x.valid →
      MsgRequest.createFromJson (x.setJsonFields .null) = some x) ∧
    (∀ x : MsgResult, x.valid →
      MsgResult.createFromJson (x.setJsonFields .null) = some x) ∧
    (∀ x : Record, x.valid →
      Record.createFromJson (x.setJsonFields .null) = some x) ∧
    (∀ x : ThreadState, x.valid →
      ThreadState.createFromJson (x.setJsonFields .null) = some x) ∧
    (∀ x : Records, x.valid →
      Records.createFromJson (x.setJsonFields .null) = some x) :=
  ⟨msgRequest_roundtrip, msgResult_roundtrip, record_roundtrip,
   threadState_roundtrip, records_roundtrip⟩

/-- Witness for C1 at concrete inputs: a populated record, thread state
and collector round-trip exactly. -/
theorem c1_serialization_roundtrip_witness :
    wRec1.valid ∧
    Record.createFromJson (wRec1.setJsonFields .null) = some wRec1 ∧
    wTs1.valid ∧
    ThreadState.createFromJson (wTs1.setJsonFields .null) = some wTs1 ∧
    (((Records.initWithId "w").updateState wTs1).addRecord wRec1).valid ∧
    Records.createFromJson
        ((((Records.initWithId "w").updateState wTs1).addRecord
            wRec1).setJsonFields .null) =
      some (((Records.initWithId "w").updateState wTs1).addRecord wRec1) ∧
    MsgRequest.createFromJson (wRec1.request.setJsonFields .null) =
      some wRec1.request ∧
    MsgResult.createFromJson (wRec1.result.setJsonFields .null) =
      some wRec1.result :=
  ⟨by decide, c1_serialization_roundtrip.2.2.1 wRec1 (by decide), by decide,
   c1_serialization_roundtrip.2.2.2.1 wTs1 (by decide), by decide,
   c1_serialization_roundtrip.2.2.2.2 _ (by decide),
   c1_serialization_roundtrip.1 wRec1.request (by decide),
   c1_serialization_roundtrip.2.1 wRec1.result (by decide)⟩

theorem batchLoop_append (l : List Json) (acc : List Record) :
    Record.batchLoop l acc = acc ++ Record.batchLoop l [] := by
  induction l generalizing acc with
  | nil => simp [Record.batchLoop]
  | cons x rest ih =>
    cases hx : Record.createFromJson x with
    | some r =>
      simp only [Record.batchLoop, hx, List.nil_append]
      rw [ih (acc ++ [r]), ih [r], List.append_assoc]
    | none =>
      simp only [Record.batchLoop, hx]
      exact ih acc

theorem batchLoop_eq_filterMap (l : List Json) :
    Record.batchLoop l [] = l.filterMap Record.createFromJson := by
  induction l with
  | nil => rfl
  | cons x rest ih =>
    rw [List.filterMap_cons]
    cases hx : Record.createFromJson x with
    | some r =>
      simp only [Record.batchLoop, hx, List.nil_append]
      rw [batchLoop_append rest [r], ih, List.singleton_append]
    | none =>
      simp only [Record.batchLoop, hx]
      exact ih

/-- C2: the batch decoder parses each array element independently,
drops exactly the elements whose parse throws, and keeps the successes
in their original relative order (it equals `filterMap`); in particular
a 3-element array whose middle element lacks the required `seq` field
decodes to exactly the first and third records, in order. -/
theorem c2_batch_partial_failure :
    (∀ l : List Json,
      Record.createBatchFromJsonParsed (.arr l) =
        l.filterMap Record.createFromJson) ∧
    Record.createBatchFromJsonParsed
        (.arr [wRec1.setJsonFields .null, jBad, wRec3.setJsonFields .null]) =
      [wRec1, wRec3] := by
  constructor
  · intro l
    simp [Record.createBatchFromJsonParsed, batchLoop_eq_filterMap]
  · decide

/-- Counterexample for C5: the file is readable — its contents are the
string "xyz" — yet `loadBatchFromJsonFile` returns false (`none`),
because `json::parse` throws inside the same try/catch; this refutes
both directions of the claim ("returns false only if the file cannot be
read" and "for every readable file it returns true"). -/
theorem c5_counterexample :
    Record.loadBatchFromJsonFile (some "xyz") = none := by decide

/-- C5 as amended: `loadBatchFromJsonFile` fails exactly when the file
cannot be read in full or its contents fail to parse as JSON; for every
readable file whose contents parse, it returns true, and a file holding
the empty JSON array is a success carrying zero records. -/
theorem c5_load_failure_amended :
    Record.loadBatchFromJsonFile none = none ∧
    (∀ s : String, (Json.parse s).isSome →
      (Record.loadBatchFromJsonFile (some s)).isSome) ∧
    (∀ s : String, (Json.parse s).isNone →
      Record.loadBatchFromJsonFile (some s) = none) ∧
    Record.loadBatchFromJsonFile (some "[]") = some [] := by
  refine ⟨rfl, ?_, ?_, by decide⟩
  · intro s hs
    cases hp : Json.parse s with
    | none =>
      rw [hp] at hs
      simp at hs
    | some j =>
      simp [Record.loadBatchFromJsonFile, Record.createBatchFromJson, hp]
  · intro s hs
    cases hp : Json.parse s with
    | none => simp [Record.loadBatchFromJsonFile, Record.createBatchFromJson, hp]
    | some j =>
      rw [hp] at hs
      simp at hs

/-- Witness for the amended C5 at concrete inputs: "[]" parses and
loads; "abc" fails to parse and the load returns false. -/
theorem c5_load_failure_amended_witness :
    (Json.parse "[]").isSome = true ∧
    (Record.loadBatchFromJsonFile (some "[]")).isSome = true ∧
    (Json.parse "abc").isNone = true ∧
    Record.loadBatchFromJsonFile (some "abc") = none :=
  ⟨by decide, c5_load_failure_amended.2.1 "[]" (by decide), by decide,
   c5_load_failure_amended.2.2.1 "abc" (by decide)⟩

theorem loadInt_eraseKey (j : Json) {k k' : String} (w : Nat) (h : k' ≠ k) :
    loadInt (j.eraseKey k) k' w = loadInt j k' w := by
  simp [loadInt, Json.find_eraseKey_ne _ h]

theorem loadUInt_eraseKey (j : Json) {k k' : String} (w : Nat) (h : k' ≠ k) :
    loadUInt (j.eraseKey k) k' w = loadUInt j k' w := by
  simp [loadUInt, Json.find_eraseKey_ne _ h]

theorem loadNum_eraseKey (j : Json) {k k' : String} (h : k' ≠ k) :
    loadNum (j.eraseKey k) k' = loadNum j k' := by
  simp [loadNum, Json.find_eraseKey_ne _ h]

theorem loadBool_eraseKey (j : Json) {k k' : String} (h : k' ≠ k) :
    loadBool (j.eraseKey k) k' = loadBool j k' := by
  simp [loadBool, Json.find_eraseKey_ne _ h]

theorem loadStr_eraseKey (j : Json) {k k' : String} (h : k' ≠ k) :
    loadStr (j.eraseKey k) k' = loadStr j k' := by
  simp [loadStr, Json.find_eraseKey_ne _ h]

theorem loadOptBool_eraseKey_ne (j : Json) {k k' : String} (d : Bool)
    (h : k' ≠ k) : loadOptBool (j.eraseKey k) k' d = loadOptBool j k' d := by
  simp [loadOptBool, Json.find_eraseKey_ne _ h]

theorem loadOptBool_eraseKey_self (j : Json) (k : String) (d : Bool) :
    loadOptBool (j.eraseKey k) k d = some d := by
  simp [loadOptBool, Json.find_eraseKey_self]

theorem loadVecNum_eraseKey (j : Json) {k k' : String} (h : k' ≠ k) :
    loadVecNum (j.eraseKey k) k' = loadVecNum j k' := by
  simp [loadVecNum, Json.find_eraseKey_ne _ h]

theorem loadVecInt64Opt_eraseKey_ne (j : Json) {k k' : String} (h : k' ≠ k) :
    loadVecInt64Opt (j.eraseKey k) k' = loadVecInt64Opt j k' := by
  simp [loadVecInt64Opt, Json.find_eraseKey_ne _ h]

theorem loadVecInt64Opt_eraseKey_self (j : Json) (k : String) :
    loadVecInt64Opt (j.eraseKey k) k = some [] := by
  simp [loadVecInt64Opt, Json.find_eraseKey_self]

theorem loadPolicies_eraseKey (j : Json) {k : String} (h : k ≠ "policies") :
    MsgResult.loadPolicies (j.eraseKey k) = MsgResult.loadPolicies j := by
  simp [MsgResult.loadPolicies, Json.find_eraseKey_ne _ (Ne.symm h)]

/-- C4: optional fields default when absent, without failing: erasing
`async` from any ClientCtrl json that deserializes successfully still
deserializes, with `async = false`; likewise `player_swap` when the load
is in the self-play-optional mode (the mode `MsgRequest` selects exactly
when its versions satisfy `is_selfplay()`); likewise `offline` on a
Record (default false) and `using_models` on a MsgResult (default
empty).  The last conjunct instantiates the enclosing-request case: a
concrete self-play MsgRequest json whose client-control object lacks
both `player_swap` and `async` deserializes with both false. -/
theorem c4_optional_defaults :
    (∀ (j : Json) (pso : Bool) (c : ClientCtrl),
      ClientCtrl.createFromJson j pso = some c →
      ClientCtrl.createFromJson (j.eraseKey "async") pso =
        some { c with async := false }) ∧
    (∀ (j : Json) (c : ClientCtrl),
      ClientCtrl.createFromJson j true = some c →
      ClientCtrl.createFromJson (j.eraseKey "player_swap") true =
        some { c with player_swap := false }) ∧
    (∀ (j : Json) (r : Record),
      Record.createFromJson j = some r →
      Record.createFromJson (j.eraseKey "offline") =
        some { r with offline := false }) ∧
    (∀ (j : Json) (m : MsgResult),
      MsgResult.createFromJson j = some m →
      MsgResult.createFromJson (j.eraseKey "using_models") =
        some { m with using_models := [] }) ∧
    MsgRequest.createFromJson jC4req =
      some { vers := { black_ver := 5, white_ver := -1, mcts_opt := {} },
             client_ctrl := { player_swap := false, async := false } } := by
  refine ⟨?_, ?_, ?_, ?_, by decide⟩
  · intro j pso c h
    cases pso with
    | true =>
      simp only [ClientCtrl.createFromJson] at h ⊢
      simp only [if_true] at h ⊢
      simp only [Option.bind_eq_bind, Option.bind_eq_some, Option.pure_def,
                 Option.some.injEq] at h
      obtain ⟨ct, hct, ng, hng, br, hbr, wr, hwr, nr, hnr, ps, hps, as, has, hc⟩ := h
      simp only [loadInt_eraseKey j 32 (by decide : "client_type" ≠ "async"),
                 loadInt_eraseKey j 32
                   (by decide : "num_game_thread_used" ≠ "async"),
                 loadNum_eraseKey j (by decide : "black_resign_thres" ≠ "async"),
                 loadNum_eraseKey j (by decide : "white_resign_thres" ≠ "async"),
                 loadNum_eraseKey j (by decide : "never_resign_prob" ≠ "async"),
                 loadOptBool_eraseKey_ne j false
                   (by decide : "player_swap" ≠ "async"),
                 loadOptBool_eraseKey_self, hct, hng, hbr, hwr, hnr, hps,
                 Option.bind_eq_bind, Option.some_bind, Option.pure_def,
                 Option.some.injEq]
      rw [← hc]
    | false =>
      simp only [ClientCtrl.createFromJson] at h ⊢
      simp only [Bool.false_eq_true, if_false] at h ⊢
      simp only [Option.bind_eq_bind, Option.bind_eq_some, Option.pure_def,
                 Option.some.injEq] at h
      obtain ⟨ct, hct, ng, hng, br, hbr, wr, hwr, nr, hnr, ps, hps, as, has, hc⟩ := h
      simp only [loadInt_eraseKey j 32 (by decide : "client_type" ≠ "async"),
                 loadInt_eraseKey j 32
                   (by decide : "num_game_thread_used" ≠ "async"),
                 loadNum_eraseKey j (by decide : "black_resign_thres" ≠ "async"),
                 loadNum_eraseKey j (by decide : "white_resign_thres" ≠ "async"),
                 loadNum_eraseKey j (by decide : "never_resign_prob" ≠ "async"),
                 loadBool_eraseKey j (by decide : "player_swap" ≠ "async"),
                 loadOptBool_eraseKey_self, hct, hng, hbr, hwr, hnr, hps,
                 Option.bind_eq_bind, Option.some_bind, Option.pure_def,
                 Option.some.injEq]
      rw [← hc]
  · intro j c h
    simp only [ClientCtrl.createFromJson] at h ⊢
    simp only [if_true] at h ⊢
    simp only [Option.bind_eq_bind, Option.bind_eq_some, Option.pure_def,
               Option.some.injEq] at h
    obtain ⟨ct, hct, ng, hng, br, hbr, wr, hwr, nr, hnr, ps, hps, as, has, hc⟩ := h
    simp only [loadInt_eraseKey j 32 (by decide : "client_type" ≠ "player_swap"),
               loadInt_eraseKey j 32
                 (by decide : "num_game_thread_used" ≠ "player_swap"),
               loadNum_eraseKey j
                 (by decide : "black_resign_thres" ≠ "player_swap"),
               loadNum_eraseKey j
                 (by decide : "white_resign_thres" ≠ "player_swap"),
               loadNum_eraseKey j
                 (by decide : "never_resign_prob" ≠ "player_swap"),
               loadOptBool_eraseKey_self,
               loadOptBool_eraseKey_ne j false
                 (by decide : "async" ≠ "player_swap"),
               hct, hng, hbr, hwr, hnr, has, Option.bind_eq_bind,
               Option.some_bind, Option.pure_def, Option.some.injEq]
    rw [← hc]
  · intro j r h
    simp only [Record.createFromJson, Option.bind_eq_bind,
               Option.bind_eq_some, Option.pure_def, Option.some.injEq] at h
    obtain ⟨rq, ⟨jq, hjq, hjq2⟩, rs, ⟨js, hjs, hjs2⟩, ts, hts, tid, htid,
            sq, hsq, pr, hpr, off, hoff, hc⟩ := h
    simp only [Record.createFromJson,
               Json.find_eraseKey_ne j (by decide : "request" ≠ "offline"),
               Json.find_eraseKey_ne j (by decide : "result" ≠ "offline"),
               loadUInt_eraseKey j 64 (by decide : "timestamp" ≠ "offline"),
               loadUInt_eraseKey j 64 (by decide : "thread_id" ≠ "offline"),
               loadInt_eraseKey j 32 (by decide : "seq" ≠ "offline"),
               loadNum_eraseKey j (by decide : "pri" ≠ "offline"),
               loadOptBool_eraseKey_self, hjq, hjq2, hjs, hjs2,
               hts, htid, hsq, hpr, Option.bind_eq_bind,
               Option.some_bind, Option.pure_def, Option.some.injEq]
    rw [← hc]
  · intro j m h
    simp only [MsgResult.createFromJson, Option.bind_eq_bind,
               Option.bind_eq_some, Option.pure_def, Option.some.injEq] at h
    obtain ⟨nm, hnm, rw', hrw, ct, hct, bn, hbn, wn, hwn, um, hum, vs, hvs,
            pls, hpls, hc⟩ := h
    simp only [MsgResult.createFromJson,
               loadInt_eraseKey j 32 (by decide : "num_move" ≠ "using_models"),
               loadNum_eraseKey j (by decide : "reward" ≠ "using_models"),
               loadStr_eraseKey j (by decide : "content" ≠ "using_models"),
               loadBool_eraseKey j
                 (by decide : "black_never_resign" ≠ "using_models"),
               loadBool_eraseKey j
                 (by decide : "white_never_resign" ≠ "using_models"),
               loadVecNum_eraseKey j (by decide : "values" ≠ "using_models"),
               loadVecInt64Opt_eraseKey_self,
               loadPolicies_eraseKey j (by decide : "using_models" ≠ "policies"),
               hnm, hrw, hct, hbn, hwn, hvs, hpls, Option.bind_eq_bind,
               Option.some_bind, Option.pure_def, Option.some.injEq]
    rw [← hc]

/-- Witness for C4 at a concrete input: erasing `async` from the
serialization of the default ClientCtrl still deserializes, with
`async = false`. -/
theorem c4_optional_defaults_witness :
    ClientCtrl.createFromJson (ClientCtrl.setJsonFields {} .null) true =
      some {} ∧
    ClientCtrl.createFromJson
        ((ClientCtrl.setJsonFields {} .null).eraseKey "async") true =
      some { ({} : ClientCtrl) with async := false } :=
  ⟨by decide,
   c4_optional_defaults.1 (ClientCtrl.setJsonFields {} .null) true {}
     (by decide)⟩

theorem find_isSome_of_bind {α : Type} {j : Json} {k : String}
    {F : Json → Option α} {x : α} (h : (j.find k).bind F = some x) :
    (j.find k).isSome := by
  cases hf : j.find k with
  | none =>
    rw [hf] at h
    simp at h
  | some v => simp

theorem find_isSome_of_loadInt {j : Json} {k : String} {w : Nat} {x : Int}
    (h : loadInt j k w = some x) : (j.find k).isSome := by
  cases hf : j.find k with
  | none => simp [loadInt, hf] at h
  | some v => simp

theorem find_isSome_of_loadUInt {j : Json} {k : String} {w : Nat} {x : Nat}
    (h : loadUInt j k w = some x) : (j.find k).isSome := by
  cases hf : j.find k with
  | none => simp [loadUInt, hf] at h
  | some v => simp

theorem find_isSome_of_loadNum {j : Json} {k : String} {x : Rat}
    (h : loadNum j k = some x) : (j.find k).isSome := by
  cases hf : j.find k with
  | none => simp [loadNum, hf] at h
  | some v => simp

theorem find_isSome_of_loadBool {j : Json} {k : String} {x : Bool}
    (h : loadBool j k = some x) : (j.find k).isSome := by
  cases hf : j.find k with
  | none => simp [loadBool, hf] at h
  | some v => simp

theorem find_isSome_of_loadStr {j : Json} {k : String} {x : String}
    (h : loadStr j k = some x) : (j.find k).isSome := by
  cases hf : j.find k with
  | none => simp [loadStr, hf] at h
  | some v => simp

theorem find_isSome_of_loadVecNum {j : Json} {k : String} {x : List Rat}
    (h : loadVecNum j k = some x) : (j.find k).isSome := by
  cases hf : j.find k with
  | none => simp [loadVecNum, hf] at h
  | some v => simp

theorem option_eq_none_of_find_none {α : Type} {o : Option α} {j : Json}
    {k : String} (himp : ∀ x, o = some x → (j.find k).isSome)
    (hp : j.find k = none) : o = none := by
  cases ho : o with
  | none => rfl
  | some x =>
    have hs := himp x ho
    rw [hp] at hs
    simp at hs

theorem clientCtrl_required_fields {j : Json} {pso : Bool}
    {c : ClientCtrl} (h : ClientCtrl.createFromJson j pso = some c) :
    (j.find "client_type").isSome ∧ (j.find "num_game_thread_used").isSome ∧
    (j.find "black_resign_thres").isSome ∧
    (j.find "white_resign_thres").isSome ∧
    (j.find "never_resign_prob").isSome ∧
    (pso = false → (j.find "player_swap").isSome) := by
  cases pso with
  | true =>
    simp only [ClientCtrl.createFromJson, if_true, Option.bind_eq_bind,
               Option.bind_eq_some] at h
    obtain ⟨ct, hct, ng, hng, br, hbr, wr, hwr, nr, hnr, _⟩ := h
    exact ⟨find_isSome_of_loadInt hct, find_isSome_of_loadInt hng,
           find_isSome_of_loadNum hbr, find_isSome_of_loadNum hwr,
           find_isSome_of_loadNum hnr,
           fun hh => absurd hh (by decide)⟩
  | false =>
    simp only [ClientCtrl.createFromJson, Bool.false_eq_true, if_false,
               Option.bind_eq_bind, Option.bind_eq_some] at h
    obtain ⟨ct, hct, ng, hng, br, hbr, wr, hwr, nr, hnr, ps, hps, _⟩ := h
    exact ⟨find_isSome_of_loadInt hct, find_isSome_of_loadInt hng,
           find_isSome_of_loadNum hbr, find_isSome_of_loadNum hwr,
           find_isSome_of_loadNum hnr,
           fun _ => find_isSome_of_loadBool hps⟩

theorem modelPair_required_fields {j : Json} {p : ModelPair}
    (h : ModelPair.createFromJson j = some p) :
    (j.find "black_ver").isSome ∧ (j.find "white_ver").isSome ∧
    (j.find "mcts_opt").isSome := by
  simp only [ModelPair.createFromJson, Option.bind_eq_bind,
             Option.bind_eq_some] at h
  obtain ⟨bv, hbv, wv, hwv, mc, hmc, _⟩ := h
  refine ⟨find_isSome_of_loadInt hbv, find_isSome_of_loadInt hwv, ?_⟩
  obtain ⟨a, ha, _⟩ := hmc
  simp [ha]

theorem msgRequest_required_fields {j : Json} {m : MsgRequest}
    (h : MsgRequest.createFromJson j = some m) :
    (j.find "vers").isSome ∧ (j.find "client_ctrl").isSome := by
  simp only [MsgRequest.createFromJson, Option.bind_eq_bind,
             Option.bind_eq_some] at h
  obtain ⟨v, ⟨av, hav, _⟩, cc, ⟨ac, hac, _⟩, _⟩ := h
  constructor <;> simp [hav, hac]

theorem msgResult_required_fields {j : Json} {m : MsgResult}
    (h : MsgResult.createFromJson j = some m) :
    (j.find "num_move").isSome ∧ (j.find "reward").isSome ∧
    (j.find "content").isSome ∧ (j.find "black_never_resign").isSome ∧
    (j.find "white_never_resign").isSome ∧ (j.find "values").isSome := by
  simp only [MsgResult.createFromJson, Option.bind_eq_bind,
             Option.bind_eq_some] at h
  obtain ⟨nm, hnm, rw', hrw, ct, hct, bn, hbn, wn, hwn, um, hum, vs, hvs,
          pls, hpls, _⟩ := h
  exact ⟨find_isSome_of_loadInt hnm, find_isSome_of_loadNum hrw,
         find_isSome_of_loadStr hct, find_isSome_of_loadBool hbn,
         find_isSome_of_loadBool hwn, find_isSome_of_loadVecNum hvs⟩

theorem record_required_fields {j : Json} {r : Record}
    (h : Record.createFromJson j = some r) :
    (j.find "request").isSome ∧ (j.find "result").isSome ∧
    (j.find "timestamp").isSome ∧ (j.find "thread_id").isSome ∧
    (j.find "seq").isSome ∧ (j.find "pri").isSome := by
  simp only [Record.createFromJson, Option.bind_eq_bind,
             Option.bind_eq_some] at h
  obtain ⟨rq, ⟨aq, haq, _⟩, rs, ⟨as', has', _⟩, ts, hts, tid, htid, sq, hsq,
          pr, hpr, _⟩ := h
  refine ⟨by simp [haq], by simp [has'], find_isSome_of_loadUInt hts,
          find_isSome_of_loadUInt htid, find_isSome_of_loadInt hsq,
          find_isSome_of_loadNum hpr⟩

theorem threadState_required_fields {j : Json} {t : ThreadState}
    (h : ThreadState.createFromJson j = some t) :
    (j.find "thread_id").isSome ∧ (j.find "seq").isSome ∧
    (j.find "move_idx").isSome ∧ (j.find "black").isSome ∧
    (j.find "white").isSome := by
  simp only [ThreadState.createFromJson, Option.bind_eq_bind,
             Option.bind_eq_some] at h
  obtain ⟨ti, hti, sq, hsq, mi, hmi, bl, hbl, wh, hwh, _⟩ := h
  exact ⟨find_isSome_of_loadInt hti, find_isSome_of_loadInt hsq,
         find_isSome_of_loadInt hmi, find_isSome_of_loadInt hbl,
         find_isSome_of_loadInt hwh⟩

theorem records_required_fields {j : Json} {rs : Records}
    (h : Records.createFromJson j = some rs) :
    (j.find "identity").isSome := by
  simp only [Records.createFromJson, Option.bind_eq_bind,
             Option.bind_eq_some] at h
  obtain ⟨idv, hid, _⟩ := h
  exact find_isSome_of_loadStr hid

/-- Counterexample for C6: a Records json carrying only `identity` —
lacking both the `states` and the `records` fields, which §6's table
does not mark optional — deserializes successfully to an empty
collector instead of throwing: `Records::createFromJson` guards both
blocks with `j.find(...) != j.end()`. -/
theorem c6_counterexample :
    Records.createFromJson (.obj [("identity", .str "a")]) =
      some { identity := "a", states := [], records := [] } := by
  decide

/-- C6 as amended: single-object deserialization fails atomically when a
required field is absent — for ClientCtrl the five always-required
fields, plus `player_swap` when not in the self-play-optional mode; for
ModelPair, MsgRequest, MsgResult, Record and ThreadState every field not
marked optional in §6; for Records however only `identity` is required:
`states` and `records` are also optional and default to empty. -/
theorem c6_atomic_failure_amended :
    (∀ (j : Json) (pso : Bool),
      (j.find "client_type" = none ∨ j.find "num_game_thread_used" = none ∨
       j.find "black_resign_thres" = none ∨
       j.find "white_resign_thres" = none ∨
       j.find "never_resign_prob" = none) →
      ClientCtrl.createFromJson j pso = none) ∧
    (∀ j : Json, j.find "player_swap" = none →
      ClientCtrl.createFromJson j false = none) ∧
    (∀ j : Json,
      (j.find "black_ver" = none ∨ j.find "white_ver" = none ∨
       j.find "mcts_opt" = none) →
      ModelPair.createFromJson j = none) ∧
    (∀ j : Json, (j.find "vers" = none ∨ j.find "client_ctrl" = none) →
      MsgRequest.createFromJson j = none) ∧
    (∀ j : Json,
      (j.find "num_move" = none ∨ j.find "reward" = none ∨
       j.find "content" = none ∨ j.find "black_never_resign" = none ∨
       j.find "white_never_resign" = none ∨ j.find "values" = none) →
      MsgResult.createFromJson j = none) ∧
    (∀ j : Json,
      (j.find "request" = none ∨ j.find "result" = none ∨
       j.find "timestamp" = none ∨ j.find "thread_id" = none ∨
       j.find "seq" = none ∨ j.find "pri" = none) →
      Record.createFromJson j = none) ∧
    (∀ j : Json,
      (j.find "thread_id" = none ∨ j.find "seq" = none ∨
       j.find "move_idx" = none ∨ j.find "black" = none ∨
       j.find "white" = none) →
      ThreadState.createFromJson j = none) ∧
    (∀ j : Json, j.find "identity" = none →
      Records.createFromJson j = none) ∧
    (∀ id : String,
      Records.createFromJson (.obj [("identity", .str id)]) =
        some { identity := id, states := [], records := [] }) := by
  refine ⟨?_, ?_, ?_, ?_, ?_, ?_, ?_, ?_, ?_⟩
  · intro j pso hd
    rcases hd with h | h | h | h | h
    · exact option_eq_none_of_find_none
        (fun c hc => (clientCtrl_required_fields hc).1) h
    · exact option_eq_none_of_find_none
        (fun c hc => (clientCtrl_required_fields hc).2.1) h
    · exact option_eq_none_of_find_none
        (fun c hc => (clientCtrl_required_fields hc).2.2.1) h
    · exact option_eq_none_of_find_none
        (fun c hc => (clientCtrl_required_fields hc).2.2.2.1) h
    · exact option_eq_none_of_find_none
        (fun c hc => (clientCtrl_required_fields hc).2.2.2.2.1) h
  · intro j h
    exact option_eq_none_of_find_none
      (fun c hc => (clientCtrl_required_fields hc).2.2.2.2.2 rfl) h
  · intro j hd
    rcases hd with h | h | h
    · exact option_eq_none_of_find_none
        (fun p hp => (modelPair_required_fields hp).1) h
    · exact option_eq_none_of_find_none
        (fun p hp => (modelPair_required_fields hp).2.1) h
    · exact option_eq_none_of_find_none
        (fun p hp => (modelPair_required_fields hp).2.2) h
  · intro j hd
    rcases hd with h | h
    · exact option_eq_none_of_find_none
        (fun m hm => (msgRequest_required_fields hm).1) h
    · exact option_eq_none_of_find_none
        (fun m hm => (msgRequest_required_fields hm).2) h
  · intro j hd
    rcases hd with h | h | h | h | h | h
    · exact option_eq_none_of_find_none
        (fun m hm => (msgResult_required_fields hm).1) h
    · exact option_eq_none_of_find_none
        (fun m hm => (msgResult_required_fields hm).2.1) h
    · exact option_eq_none_of_find_none
        (fun m hm => (msgResult_required_fields hm).2.2.1) h
    · exact option_eq_none_of_find_none
        (fun m hm => (msgResult_required_fields hm).2.2.2.1) h
    · exact option_eq_none_of_find_none
        (fun m hm => (msgResult_required_fields hm).2.2.2.2.1) h
    · exact option_eq_none_of_find_none
        (fun m hm => (msgResult_required_fields hm).2.2.2.2.2) h
  · intro j hd
    rcases hd with h | h | h | h | h | h
    · exact option_eq_none_of_find_none
        (fun r hr => (record_required_fields hr).1) h
    · exact option_eq_none_of_find_none
        (fun r hr => (record_required_fields hr).2.1) h
    · exact option_eq_none_of_find_none
        (fun r hr => (record_required_fields hr).2.2.1) h
    · exact option_eq_none_of_find_none
        (fun r hr => (record_required_fields hr).2.2.2.1) h
    · exact option_eq_none_of_find_none
        (fun r hr => (record_required_fields hr).2.2.2.2.1) h
    · exact option_eq_none_of_find_none
        (fun r hr => (record_required_fields hr).2.2.2.2.2) h
  · intro j hd
    rcases hd with h | h | h | h | h
    · exact option_eq_none_of_find_none
        (fun t ht => (threadState_required_fields ht).1) h
    · exact option_eq_none_of_find_none
        (fun t ht => (threadState_required_fields ht).2.1) h
    · exact option_eq_none_of_find_none
        (fun t ht => (threadState_required_fields ht).2.2.1) h
    · exact option_eq_none_of_find_none
        (fun t ht => (threadState_required_fields ht).2.2.2.1) h
    · exact option_eq_none_of_find_none
        (fun t ht => (threadState_required_fields ht).2.2.2.2) h
  · intro j h
    exact option_eq_none_of_find_none
      (fun rs hrs => records_required_fields hrs) h
  · intro id
    simp [Records.createFromJson, loadStr, Records.loadStates,
          Records.loadRecords, Json.find, List.lookup, Json.getStr]

/-- Witness for the amended C6 at concrete inputs: the empty json object
fails to parse as a ClientCtrl, a MsgResult, a Record, a ThreadState,
and a Records. -/
theorem c6_atomic_failure_amended_witness :
    (Json.obj []).find "client_type" = none ∧
    ClientCtrl.createFromJson (.obj []) true = none ∧
    MsgResult.createFromJson (.obj []) = none ∧
    Record.createFromJson (.obj []) = none ∧
    ThreadState.createFromJson (.obj []) = none ∧
    Records.createFromJson (.obj []) = none ∧
    Records.createFromJson (.obj [("identity", .str "a")]) =
      some { identity := "a", states := [], records := [] } :=
  ⟨rfl,
   c6_atomic_failure_amended.1 (.obj []) true (Or.inl rfl),
   c6_atomic_failure_amended.2.2.2.2.1 (.obj []) (Or.inl rfl),
   c6_atomic_failure_amended.2.2.2.2.2.1 (.obj []) (Or.inl rfl),
   c6_atomic_failure_amended.2.2.2.2.2.2.1 (.obj []) (Or.inl rfl),
   c6_atomic_failure_amended.2.2.2.2.2.2.2.1 (.obj []) rfl,
   c6_atomic_failure_amended.2.2.2.2.2.2.2.2 "a"⟩

/-- Counterexample for C7: `jC7` parses successfully to a MsgResult with
one policy entry and one value but `num_move = 0` — both per-move
sequences are non-empty yet `len <= num_move` fails, so the deserializer
does not enforce the data-model invariant. -/
theorem c7_counterexample :
    (MsgResult.createFromJson jC7).map
        (fun r => (r.policies.length, r.values.length, r.num_move)) =
      some (1, 1, 0) ∧ ¬((1 : Int) ≤ 0) := by
  constructor
  · decide
  · decide

/-- C7 as amended: `MsgResult::createFromJson` copies the per-move
arrays verbatim — the lengths of `values` and `policies` in the result
equal the lengths of the corresponding json arrays — so the invariant
`len(policies) == len(values) <= num_move` holds exactly when the input
json already satisfies it; the deserializer itself checks nothing. -/
theorem c7_invariant_amended :
    ∀ (j : Json) (r : MsgResult) (lv lp : List Json),
      j.find "values" = some (.arr lv) →
      j.find "policies" = some (.arr lp) →
      MsgResult.createFromJson j = some r →
      (r.values.length = lv.length ∧ r.policies.length = lp.length ∧
        (lp.length = lv.length → (lv.length : Int) ≤ r.num_move →
          (r.policies.length = r.values.length ∧
            (r.values.length : Int) ≤ r.num_move))) := by
  intro j r lv lp hv hp h
  simp only [MsgResult.createFromJson, Option.bind_eq_bind,
             Option.bind_eq_some, Option.pure_def, Option.some.injEq] at h
  obtain ⟨nm, hnm, rw', hrw, ct, hct, bn, hbn, wn, hwn, um, hum, vs, hvs,
          pls, hpls, hc⟩ := h
  simp only [loadVecNum, hv] at hvs
  have h1 := mapM_some_length lv _ vs hvs
  simp only [MsgResult.loadPolicies, hp] at hpls
  have h2 := mapM_some_length lp _ pls hpls
  subst hc
  refine ⟨h1, h2, ?_⟩
  intro hlen hle
  constructor
  · rw [h1, h2, hlen]
  · rw [h1]
    exact hle

set_option maxRecDepth 8000 in
/-- Witness for the amended C7 at a concrete input: `jC7W` has one
value, one policy and `num_move = 1`, and its parse satisfies the
invariant. -/
theorem c7_invariant_amended_witness :
    MsgResult.createFromJson jC7W = some rC7W ∧
    rC7W.policies.length = rC7W.values.length ∧
    (rC7W.values.length : Int) ≤ rC7W.num_move :=
  ⟨by decide,
   (c7_invariant_amended jC7W rC7W [.num 1] [.arr [.num 5]] rfl rfl
      (by decide)).2.2 (by decide) (by decide)⟩

/-- Witness for C2 at a concrete input: the three-element batch with the
broken middle element decodes to the first and third records via the
filterMap characterization. -/
theorem c2_batch_partial_failure_witness :
    Record.createBatchFromJsonParsed
        (.arr [wRec1.setJsonFields .null, jBad, wRec3.setJsonFields .null]) =
      [wRec1.setJsonFields .null, jBad,
        wRec3.setJsonFields .null].filterMap Record.createFromJson ∧
    [wRec1.setJsonFields .null, jBad,
        wRec3.setJsonFields .null].filterMap Record.createFromJson =
      [wRec1, wRec3] :=
  ⟨c2_batch_partial_failure.1
     [wRec1.setJsonFields .null, jBad, wRec3.setJsonFields .null],
   by decide⟩

/-- Witness for C3 at a concrete input: the default search options give
the three stated classifications. -/
theorem c3_mode_classification_witness :
    ModelPair.wait ⟨-1, -1, {}⟩ = true ∧
    ModelPair.is_selfplay ⟨5, -1, {}⟩ = true ∧
    ModelPair.wait ⟨5, 7, {}⟩ = false ∧
    ModelPair.is_selfplay ⟨5, 7, {}⟩ = false :=
  ⟨c3_mode_classification.2.2.1 {}, c3_mode_classification.2.2.2.1 {},
   (c3_mode_classification.2.2.2.2 {}).1, (c3_mode_classification.2.2.2.2 {}).2⟩

/-- Witness for C9 at a concrete input: adding one record to the fresh
collector makes it non-empty, and clearing a populated collector empties
records and states. -/
theorem c9_collector_emptiness_witness :
    (Records.init.addRecord wRec1).isRecordEmpty = false ∧
    ((Records.init.updateState wTs1).addRecord wRec1).clear.isRecordEmpty =
      true ∧
    ((Records.init.updateState wTs1).addRecord wRec1).clear.states = [] :=
  ⟨c9_collector_emptiness.2.2.2.2.2.1 Records.init wRec1,
   (c9_collector_emptiness.2.2.2.2.2.2
      ((Records.init.updateState wTs1).addRecord wRec1)).1,
   (c9_collector_emptiness.2.2.2.2.2.2
      ((Records.init.updateState wTs1).addRecord wRec1)).2⟩
